import Mathlib

/-!
# Verification of the football-ai media-upload and AI-inference pipeline

This file gives a shallow embedding, in Lean 4, of the resilient
media-upload / AI-inference pipeline of the repository:

* `supabase/functions/analyze-large-video/index.ts` — two Deno edge
  functions (general video detection, and per-player performance analysis),
  each with its own uploader (`uploadVideoToFilesAPI`), readiness poller
  (`waitForFileProcessing`), retry loop and validator, plus the JSON
  extraction cascade `extractJsonFromText` and the fallback generator
  `generateFallbackPerformanceData`;
* `src/services/geminiAI.ts` — the browser-side `FootballAI` class with
  `uploadAndAnalyzeVideo`, `analyzeStaticFrameForPlayers` (filter +
  normalisation), and `extractJsonFromString`.

Numbers that the TypeScript source manipulates as JS doubles are embedded
as rationals (`ℚ`); byte counts as `ℕ`.  JS `x || d` default-taking (which
also replaces `0`, `""`, `NaN` and missing values by the default) is
embedded by explicit `jsOr*` helpers.  `Math.random()` is embedded as an
explicit stream `ℕ → ℚ` of draws, and `Date.now()` as an explicit `now`
argument, so that the (non)determinism of the fallback generators is
visible in the model.  Network interaction is embedded by passing in the
sequence of responses the remote service would produce and recording the
requests the code would issue.

The file is organised as: all definitions first, then all theorems.
-/

set_option maxRecDepth 8000

namespace FootballAI

/-! # Part 1: definitions -/

/-- `Math.max lo (Math.min hi x)` — the clamping idiom used throughout the
source for coordinates, confidences and performance scores. -/
def clamp (lo hi x : ℚ) : ℚ := max lo (min hi x)

/-- JS `v || d` on an optional number: `undefined`, `NaN` (modelled as
`none`) and `0` are falsy and give the default. -/
def jsOrNum (v : Option ℚ) (d : ℚ) : ℚ :=
  match v with
  | some q => if q = 0 then d else q
  | none => d

/-- JS `v || d` on an optional integer id. -/
def jsOrNat (v : Option ℕ) (d : ℕ) : ℕ :=
  match v with
  | some n => if n = 0 then d else n
  | none => d

/-- JS `v || d` on an optional string: `undefined` and `""` are falsy. -/
def jsOrStr (v : Option String) (d : String) : String :=
  match v with
  | some s => if s = "" then d else s
  | none => d

/-- JS truthiness of an optional string, used for chained `a || b || c`. -/
def jsTruthyStr (v : Option String) : Option String :=
  match v with
  | some s => if s = "" then none else some s
  | none => none

/-- JS `a || b || c` on two optional strings with a final literal. -/
def jsOrStr3 (a b : Option String) (c : String) : String :=
  match jsTruthyStr a with
  | some s => s
  | none =>
    match jsTruthyStr b with
    | some s => s
    | none => c

/-! ## Chunked upload manager (`uploadVideoToFilesAPI`, analyze-player-performance variant)

`index.ts` lines 545–654.  After the metadata request the uploader either
PUTs the whole payload at offset 0 with command `upload, finalize`
(`fileSize <= MAX_CHUNK_SIZE`), or splits it into
`Math.ceil(fileSize / MAX_CHUNK_SIZE)` sequential chunks, PUT at offset
`i * MAX_CHUNK_SIZE` spanning `start .. min(start + MAX_CHUNK_SIZE, fileSize)`,
with command `upload` except `upload, finalize` on the last chunk. -/

/-- `MAX_CHUNK_SIZE = 50 * 1024 * 1024` (50 MiB). -/
def MAX_CHUNK_SIZE : ℕ := 50 * 1024 * 1024

/-- One `PUT` request to the session upload URL: its `X-Goog-Upload-Offset`
header, its `Content-Length`, and whether `X-Goog-Upload-Command` carries
`finalize` (`upload, finalize`) rather than plain `upload`. -/
structure ChunkPut where
  offset : ℕ
  length : ℕ
  finalize : Bool
deriving DecidableEq, Repr

/-- `Math.ceil(fileSize / MAX_CHUNK_SIZE)` — the chunk count of the loop. -/
def numChunks (fileSize : ℕ) : ℕ := (fileSize + MAX_CHUNK_SIZE - 1) / MAX_CHUNK_SIZE

/-- The sequence of PUT requests `uploadVideoToFilesAPI` issues to the
session URL for a payload of `fileSize` bytes (assuming every request
succeeds; a failed chunk aborts the whole upload). -/
def uploadPuts (fileSize : ℕ) : List ChunkPut :=
  if fileSize ≤ MAX_CHUNK_SIZE then
    [{ offset := 0, length := fileSize, finalize := true }]
  else
    (List.range (numChunks fileSize)).map fun i =>
      let start := i * MAX_CHUNK_SIZE
      let stop := min (start + MAX_CHUNK_SIZE) fileSize
      { offset := start, length := stop - start, finalize := i = numChunks fileSize - 1 }

/-! ## Remote readiness pollers (`waitForFileProcessing`, two variants)

The repository contains two pollers:

* the analyze-large-video variant (`index.ts` lines 135–161): on a non-2xx
  status it `throw`s immediately (no `try`/`catch`), a rejected `fetch`
  propagates, a `FAILED` state throws, and it sleeps a constant 5000 ms
  between polls;
* the analyze-player-performance variant (`index.ts` lines 657–692): the
  whole poll body is inside `try { … } catch { log; sleep; }`, so any
  thrown error — non-2xx status, network failure, and also the `FAILED`
  throw itself — is caught and polling continues; the sleep interval starts
  at 5000 ms and is updated by `checkInterval = min(checkInterval * 1.2, 30000)`
  after each successful poll.

The deadline (`Date.now() - startTime < maxWaitTime`) is embedded by the
length of the supplied response list: when the responses are exhausted the
deadline has elapsed and the loop exits with the timeout error. -/

/-- One response of the status endpoint: a 2xx reply carrying a `state`
string, a non-2xx HTTP status, or a network failure (rejected `fetch`). -/
inductive PollResp where
  | ok (state : String)
  | httpError (status : ℕ)
  | netError
deriving DecidableEq, Repr

/-- How a poller run ends: the file became `ACTIVE`; the poller threw the
`FAILED`-state error; it threw the status-check error (propagating a
transient poll failure); it propagated a network failure; or it timed out. -/
inductive PollOutcome where
  | active
  | procFailed
  | reqFailed (status : ℕ)
  | netFailed
  | timeout
deriving DecidableEq, Repr

/-- The analyze-large-video poller (lines 135–161): no `try`/`catch`, so a
non-2xx status or a rejected fetch aborts the whole poll loop. -/
def waitForFileProcessing1 : List PollResp → PollOutcome
  | [] => .timeout
  | r :: rest =>
    match r with
    | .httpError s => .reqFailed s
    | .netError => .netFailed
    | .ok st =>
      if st = "ACTIVE" then .active
      else if st = "FAILED" then .procFailed
      else waitForFileProcessing1 rest

/-- The analyze-player-performance poller (lines 657–692): every error in
the poll body — transient or the `FAILED` throw — is caught by the `catch`
and the loop continues. -/
def waitForFileProcessing2 : List PollResp → PollOutcome
  | [] => .timeout
  | r :: rest =>
    match r with
    | .httpError _ => waitForFileProcessing2 rest
    | .netError => waitForFileProcessing2 rest
    | .ok st =>
      if st = "ACTIVE" then .active
      else waitForFileProcessing2 rest

/-- The sleep interval before the (n+1)-st wait of the
analyze-player-performance poller, assuming every poll succeeds and
returns a `PROCESSING` state (the main path: sleep `checkInterval`, then
`checkInterval = Math.min(checkInterval * 1.2, 30000)`).  Milliseconds,
embedded as rationals (`1.2 = 6/5`). -/
def checkIntervalSeq : ℕ → ℚ
  | 0 => 5000
  | n + 1 => min (checkIntervalSeq n * (6 / 5)) 30000

/-- The analyze-large-video poller's sleep interval: a constant
`setTimeout(resolve, 5000)` regardless of how many polls have happened. -/
def pollInterval1 (_n : ℕ) : ℚ := 5000

/-! ## Performance validator and fallback generator
(`analyzePlayerPerformanceWithFilesAPI`, `generateFallbackPerformanceData`)

`index.ts` lines 513–542 and 854–874.  The parsed model output is a JSON
value whose fields may be missing or non-numeric; a field is embedded as
`Option ℚ` (`none` when the field is absent or `Number(...)` yields `NaN`).
`isValidDateString` calls the JS `Date` parser; that external parser is
embedded as the boolean oracle `dateParses` (the repo logic around it —
empty / `"unknown"` strings — is embedded faithfully).
`new Date(now).toISOString()` is embedded abstractly by `isoString` (its
exact text plays no role in any verified property). -/

/-- Raw (parsed, unvalidated) performance payload as read by
`analyzePlayerPerformanceWithFilesAPI`: each numeric field is `none` when
missing or non-numeric, `dominantFoot?.right` / `dominantFoot?.left`
likewise. -/
structure RawPerformance where
  matchId : Option String
  date : Option String
  opponent : Option String
  overall : Option ℚ
  speed : Option ℚ
  passing : Option ℚ
  positioning : Option ℚ
  touches : Option ℚ
  distance : Option ℚ
  topSpeed : Option ℚ
  passAccuracy : Option ℚ
  footRight : Option ℚ
  footLeft : Option ℚ
deriving DecidableEq, Repr

/-- The validated / fallback performance record. -/
structure Performance where
  matchId : String
  date : String
  opponent : String
  overall : ℚ
  speed : ℚ
  passing : ℚ
  positioning : ℚ
  touches : ℚ
  distance : ℚ
  topSpeed : ℚ
  passAccuracy : ℚ
  footRight : ℚ
  footLeft : ℚ
deriving DecidableEq, Repr

/-- Abstract rendering of `new Date(now).toISOString()`. -/
def isoString (now : ℕ) : String := "iso:" ++ toString now

/-- `isValidDateString` (lines 513–519): false for a missing, `"unknown"`
or blank string; otherwise whatever `new Date(...)` parsing yields
(external, the oracle `dateParses`). -/
def isValidDateString (s : Option String) (dateParses : Bool) : Bool :=
  match s with
  | none => false
  | some t => if t = "unknown" || t.trim = "" then false else dateParses

/-- `validatedData` (lines 854–874): clamp every numeric field into its
fixed range, substituting the fixed default when the field is missing,
non-numeric — or `0`, since `Number(x) || d` treats `0` as falsy. -/
def validatedData (now : ℕ) (dateParses : Bool) (d : RawPerformance) : Performance :=
  { matchId := jsOrStr d.matchId ("match_" ++ toString now),
    date := if isValidDateString d.date dateParses then (d.date.getD "") else isoString now,
    opponent := jsOrStr d.opponent "对手队伍",
    overall := clamp 0 100 (jsOrNum d.overall 75),
    speed := clamp 0 100 (jsOrNum d.speed 80),
    passing := clamp 0 100 (jsOrNum d.passing 78),
    positioning := clamp 0 100 (jsOrNum d.positioning 82),
    touches := clamp 0 500 (jsOrNum d.touches 120),
    distance := clamp 0 20 (jsOrNum d.distance (75 / 10)),
    topSpeed := clamp 0 50 (jsOrNum d.topSpeed (225 / 10)),
    passAccuracy := clamp 0 100 (jsOrNum d.passAccuracy 85),
    footRight := clamp 0 100 (jsOrNum d.footRight 65),
    footLeft := clamp 0 100 (jsOrNum d.footLeft 35) }

/-- A raw payload with every field absent (or non-numeric). -/
def rawAllMissing : RawPerformance :=
  { matchId := none, date := none, opponent := none,
    overall := none, speed := none, passing := none, positioning := none,
    touches := none, distance := none, topSpeed := none, passAccuracy := none,
    footRight := none, footLeft := none }

/-- A raw payload reporting `dominantFoot = {right: 70, left: 70}`, with
all other numeric fields present and in range. -/
def rawFoot7070 : RawPerformance :=
  { matchId := some "m1", date := none, opponent := some "opp",
    overall := some 80, speed := some 80, passing := some 80, positioning := some 80,
    touches := some 100, distance := some 8, topSpeed := some 25, passAccuracy := some 85,
    footRight := some 70, footLeft := some 70 }

/-- `generateFallbackPerformanceData` (lines 522–542).  `rnd k` is the
value of the (k+1)-st call to `Math.random()` during the invocation, `now`
the value of `Date.now()`; the `playerName` argument of the source is taken
but (as in the source) never used in the produced record. -/
def generateFallbackPerformanceData (playerName : String) (now : ℕ) (rnd : ℕ → ℚ) :
    Performance :=
  let baseScore : ℚ := 70 + (⌊rnd 0 * 20⌋ : ℤ)
  { matchId := "match_" ++ toString now,
    date := isoString now,
    opponent := "对手队伍",
    overall := baseScore,
    speed := baseScore + (⌊rnd 1 * 10⌋ : ℤ) - 5,
    passing := baseScore + (⌊rnd 2 * 10⌋ : ℤ) - 5,
    positioning := baseScore + (⌊rnd 3 * 10⌋ : ℤ) - 5,
    touches := 80 + (⌊rnd 4 * 60⌋ : ℤ),
    distance := 6 + rnd 5 * 3,
    topSpeed := 20 + rnd 6 * 8,
    passAccuracy := 75 + (⌊rnd 7 * 20⌋ : ℤ),
    footRight := 60 + (⌊rnd 8 * 30⌋ : ℤ),
    footLeft := 40 - (⌊rnd 9 * 30⌋ : ℤ) }

/-! ## Detection orchestrator, server path (`analyzeVideoWithFilesAPI`)

`index.ts` lines 164–360.  Each inference attempt either fails (HTTP
error, missing candidates, JSON extraction failure, missing/empty players
array — all thrown and caught by the attempt loop) or yields a parsed
analysis result with a non-empty players array.  An attempt is embedded as
`Option ServerAnalysis` (`none` = the attempt threw before producing a
players array).  After `maxAttempts = 3` failures the loop installs the
hard-coded default configuration and breaks.  The chosen result is then
mapped through the per-player normalisation (lines 336–352), whose
`movementPattern` draws `Math.random()` twice per position; the serve
handler (lines 47–56) wraps the result as
`{success: true, players, teamColors}` — with no further key. -/

/-- `{home, away}` jersey colours. -/
structure TeamColors where
  home : String
  away : String
deriving DecidableEq, Repr

/-- A raw player element of the parsed server response (no width/height on
this path); `none` = field missing or of the wrong type. -/
structure ServerRawPlayer where
  id : Option ℕ
  x : Option ℚ
  y : Option ℚ
  confidence : Option ℚ
  jersey : Option String
  team : Option String
  teamColor : Option String
  timestamp : Option ℚ
deriving DecidableEq, Repr

/-- A successfully parsed analysis result (players array present). -/
structure ServerAnalysis where
  teamColors : Option TeamColors
  players : List ServerRawPlayer
deriving DecidableEq, Repr

/-- `maxAttempts = 3` of `analyzeVideoWithFilesAPI`. -/
def maxAttempts : ℕ := 3

/-- Whether an attempt counts as a success in the loop (parsed, players
array present and non-empty — an empty array throws `AI 未检测到任何球员`). -/
def attemptSucceeds (r : Option ServerAnalysis) : Bool :=
  match r with
  | some a => !a.players.isEmpty
  | none => false

/-- The hard-coded default configuration installed after the last failed
attempt (lines 282–326). -/
def fallbackAnalysis : ServerAnalysis :=
  { teamColors := some { home := "蓝色", away := "红色" },
    players :=
      [ { id := some 1, x := some 30, y := some 45, confidence := some (8/10),
          jersey := some "10", team := some "home", teamColor := some "蓝色",
          timestamp := some 10 },
        { id := some 2, x := some 70, y := some 55, confidence := some (8/10),
          jersey := some "7", team := some "away", teamColor := some "红色",
          timestamp := some 12 },
        { id := some 3, x := some 50, y := some 35, confidence := some (7/10),
          jersey := some "9", team := some "home", teamColor := some "蓝色",
          timestamp := some 8 },
        { id := some 4, x := some 80, y := some 25, confidence := some (7/10),
          jersey := some "11", team := some "away", teamColor := some "红色",
          timestamp := some 14 } ] }

/-- The `while (attempts < maxAttempts)` loop, with the remaining attempt
budget as fuel: returns how many attempts were made and the
`analysisResult` in effect when the loop breaks (the first success, or the
default configuration after the budget is exhausted). -/
def attemptLoop : ℕ → List (Option ServerAnalysis) → ℕ × ServerAnalysis
  | 0, _ => (0, fallbackAnalysis)
  | 1, rs =>
    match rs.headD none with
    | some a => if a.players.isEmpty then (1, fallbackAnalysis) else (1, a)
    | none => (1, fallbackAnalysis)
  | fuel + 2, rs =>
    match rs.headD none with
    | some a =>
      if a.players.isEmpty then
        ((attemptLoop (fuel + 1) rs.tail).1 + 1, (attemptLoop (fuel + 1) rs.tail).2)
      else (1, a)
    | none => ((attemptLoop (fuel + 1) rs.tail).1 + 1, (attemptLoop (fuel + 1) rs.tail).2)

/-- The attempt phase of `analyzeVideoWithFilesAPI`, fed with the sequence
of attempt results the environment would produce. -/
def analyzeVideoAttempts (rs : List (Option ServerAnalysis)) : ℕ × ServerAnalysis :=
  attemptLoop maxAttempts rs

/-- A movement-pattern position on the server path. -/
structure Pos2 where
  x : ℚ
  y : ℚ
deriving DecidableEq, Repr

/-- `movementPattern` of a processed server player. -/
structure ServerMovement where
  timestamps : List ℚ
  positions : List Pos2
deriving DecidableEq, Repr

/-- The seven synthesized movement positions (lines 346–351):
`Math.max(5, Math.min(95, (player.x || 50) + (Math.random() - 0.5) * 15))`
and analogously for y with factor 10; position i draws `rnd (2i)` for x
then `rnd (2i+1)` for y. -/
def serverMovementPositions (rnd : ℕ → ℚ) (x0 y0 : ℚ) : List Pos2 :=
  (List.range 7).map fun i =>
    { x := clamp 5 95 (x0 + (rnd (2 * i) - 1/2) * 15),
      y := clamp 5 95 (y0 + (rnd (2 * i + 1) - 1/2) * 10) }

/-- A fully processed server player (lines 336–352). -/
structure ProcessedServerPlayer where
  id : ℕ
  x : ℚ
  y : ℚ
  confidence : ℚ
  jersey : String
  team : String
  teamColor : String
  timestamp : ℚ
  movementPattern : ServerMovement
deriving DecidableEq, Repr

/-- Per-player processing of the server path; `rnd` is this player's
segment of the global `Math.random()` stream (player `idx` consumes the
fourteen draws `rnd (14*idx) .. rnd (14*idx + 13)`). -/
def processServerPlayer (rnd : ℕ → ℚ) (tc : Option TeamColors) (idx : ℕ)
    (p : ServerRawPlayer) : ProcessedServerPlayer :=
  { id := jsOrNat p.id (idx + 1),
    x := match p.x with
         | some q => clamp 0 100 q
         | none => 50,
    y := match p.y with
         | some q => clamp 0 100 q
         | none => 50,
    confidence := match p.confidence with
                  | some q => clamp 0 1 q
                  | none => 8/10,
    jersey := jsOrStr p.jersey (toString (idx + 1)),
    team := jsOrStr p.team (if idx % 2 = 0 then "home" else "away"),
    teamColor := jsOrStr3 p.teamColor
      (if p.team = some "home" then tc.map TeamColors.home else tc.map TeamColors.away)
      (if idx % 2 = 0 then "蓝色" else "红色"),
    timestamp := p.timestamp.getD 0,
    movementPattern :=
      { timestamps := [5, 10, 15, 20, 25, 30, 35],
        positions := serverMovementPositions (fun k => rnd (14 * idx + k))
          (jsOrNum p.x 50) (jsOrNum p.y 50) } }

/-- `analyzeVideoWithFilesAPI`: run the attempt loop, then normalise every
player of the chosen result.  Returns (attempts made, players,
teamColors). -/
def analyzeVideoWithFilesAPI (rnd : ℕ → ℚ) (rs : List (Option ServerAnalysis)) :
    ℕ × List ProcessedServerPlayer × TeamColors :=
  let a := analyzeVideoAttempts rs
  ⟨a.1,
   a.2.players.mapIdx fun idx p => processServerPlayer rnd a.2.teamColors idx p,
   a.2.teamColors.getD { home := "蓝色", away := "红色" }⟩

/-- The JSON body the analyze-large-video handler sends back on the success
path (lines 47–56): `{success: true, players, teamColors}`.  `warning`
models the presence of a warning key in the body: the detection handler
never emits one. -/
structure DetectionResponse where
  success : Bool
  players : List ProcessedServerPlayer
  teamColors : TeamColors
  warning : Option String
deriving DecidableEq, Repr

/-- The analyze-large-video handler around `analyzeVideoWithFilesAPI`. -/
def serveAnalyzeLargeVideo (rnd : ℕ → ℚ) (rs : List (Option ServerAnalysis)) :
    DetectionResponse :=
  { success := true,
    players := (analyzeVideoWithFilesAPI rnd rs).2.1,
    teamColors := (analyzeVideoWithFilesAPI rnd rs).2.2,
    warning := none }

/-- The analyze-player-performance handler's body when the analysis step
has exhausted its retries (lines 463–476): it falls back to
`generateFallbackPerformanceData` and does attach a warning key. -/
def servePerformanceOnAnalysisFailure (playerName : String) (now : ℕ) (rnd : ℕ → ℚ) :
    Bool × Performance × Option String :=
  ⟨true, generateFallbackPerformanceData playerName now rnd, some "AI分析失败，使用默认数据"⟩

/-! ## Static-frame detection, client path (`analyzeStaticFrameForPlayers`)

`geminiAI.ts` lines 246–503.  Raw players are filtered by the validity
predicate (lines 346–366), the filtered list replaces the players array;
an attempt succeeds when it is non-empty.  After `maxAttempts = 5`
failures the hard-coded six-player default is installed.  The surviving
players are normalised (lines 476–494). -/

/-- A raw player element parsed from the model reply on the static-frame
path.  `isReferee` is the JS truthiness of `player.isReferee`. -/
structure FrameRawPlayer where
  id : Option ℕ
  x : Option ℚ
  y : Option ℚ
  width : Option ℚ
  height : Option ℚ
  confidence : Option ℚ
  jersey : Option String
  team : Option String
  teamColor : Option String
  isReferee : Bool
deriving DecidableEq, Repr

/-- The validity filter of lines 346–366: referees are dropped; players
whose (defaulted) box is outside the strict bounds are dropped; confidence
below 0.6 is dropped. -/
def validPlayer (p : FrameRawPlayer) : Bool :=
  if p.isReferee then false
  else
    let x := p.x.getD 0
    let y := p.y.getD 0
    let width := p.width.getD 0
    let height := p.height.getD 0
    if width < 2 ∨ width > 20 ∨ height < 6 ∨ height > 30 then false
    else if x < 0 ∨ x > 98 ∨ y < 0 ∨ y > 98 then false
    else if x + width > 100 ∨ y + height > 100 then false
    else
      let confidence := p.confidence.getD 0
      if confidence < 6/10 then false else true

/-- A parsed static-frame analysis (players array present). -/
structure FrameAnalysis where
  teamColors : Option TeamColors
  players : List FrameRawPlayer
deriving DecidableEq, Repr

/-- The six-player default configuration of lines 384–466; every entry has
`isReferee: false` and the sampled frame's timestamp. -/
def frameFallbackAnalysis : FrameAnalysis :=
  { teamColors := some { home := "Blue", away := "Red" },
    players :=
      [ { id := some 1, x := some 15, y := some 20, width := some 8, height := some 20,
          confidence := some (88/100), jersey := some "10", team := some "home",
          teamColor := some "Blue", isReferee := false },
        { id := some 2, x := some 70, y := some 30, width := some 7, height := some 18,
          confidence := some (85/100), jersey := some "7", team := some "away",
          teamColor := some "Red", isReferee := false },
        { id := some 3, x := some 40, y := some 15, width := some 8, height := some 22,
          confidence := some (82/100), jersey := some "9", team := some "home",
          teamColor := some "Blue", isReferee := false },
        { id := some 4, x := some 60, y := some 50, width := some 7, height := some 19,
          confidence := some (80/100), jersey := some "11", team := some "away",
          teamColor := some "Red", isReferee := false },
        { id := some 5, x := some 25, y := some 65, width := some 8, height := some 21,
          confidence := some (78/100), jersey := some "8", team := some "home",
          teamColor := some "Blue", isReferee := false },
        { id := some 6, x := some 80, y := some 10, width := some 7, height := some 17,
          confidence := some (83/100), jersey := some "3", team := some "away",
          teamColor := some "Red", isReferee := false } ] }

/-- The static-frame attempt loop (`maxAttempts = 5`), fuel = remaining
attempt budget; an attempt succeeds when the filtered players list is
non-empty, and the filtered list replaces the players array. -/
def frameAttemptLoop : ℕ → List (Option FrameAnalysis) → FrameAnalysis
  | 0, _ => frameFallbackAnalysis
  | 1, rs =>
    match rs.headD none with
    | some a =>
      if (a.players.filter validPlayer).isEmpty then frameFallbackAnalysis
      else { teamColors := a.teamColors, players := a.players.filter validPlayer }
    | none => frameFallbackAnalysis
  | fuel + 2, rs =>
    match rs.headD none with
    | some a =>
      if (a.players.filter validPlayer).isEmpty then frameAttemptLoop (fuel + 1) rs.tail
      else { teamColors := a.teamColors, players := a.players.filter validPlayer }
    | none => frameAttemptLoop (fuel + 1) rs.tail

/-- A movement position on the static-frame path (with box size). -/
structure Pos4 where
  x : ℚ
  y : ℚ
  width : ℚ
  height : ℚ
deriving DecidableEq, Repr

/-- `movementPattern` of a processed static-frame player. -/
structure FrameMovement where
  timestamps : List ℚ
  positions : List Pos4
deriving DecidableEq, Repr

/-- JS `Math.round(v * 10) / 10` (round to one decimal, half up). -/
def roundTenth (q : ℚ) : ℚ := ((⌊q * 10 + 1/2⌋ : ℤ) : ℚ) / 10

/-- The step loop of `generateRealisticMovementPatternWithBounds`
(`geminiAI.ts`, the `for` over seven timestamps): step i draws
`rnd (3i)`, `rnd (3i+1)`, `rnd (3i+2)` for moveX, moveY, sizeVariation. -/
def movementSteps (rnd : ℕ → ℚ) : ℕ → ℕ → ℚ → ℚ → ℚ → ℚ → List Pos4
  | 0, _, _, _, _, _ => []
  | n + 1, i, cx, cy, cw, ch =>
    let moveX := (rnd (3 * i) - 1/2) * 15
    let moveY := (rnd (3 * i + 1) - 1/2) * 10
    let sizeVariation := (rnd (3 * i + 2) - 1/2) * 2
    let nx := clamp 5 95 (cx + moveX)
    let ny := clamp 5 95 (cy + moveY)
    let nw := clamp 5 20 (cw + sizeVariation)
    let nh := clamp 10 30 (ch + sizeVariation)
    { x := roundTenth nx, y := roundTenth ny,
      width := roundTenth nw, height := roundTenth nh }
      :: movementSteps rnd n (i + 1) nx ny nw nh

/-- `generateRealisticMovementPatternWithBounds(startX, startY, startWidth,
startHeight)`. -/
def generateRealisticMovementPatternWithBounds (rnd : ℕ → ℚ)
    (startX startY startWidth startHeight : ℚ) : FrameMovement :=
  { timestamps := [5, 10, 15, 20, 25, 30, 35],
    positions := movementSteps rnd 7 0 startX startY startWidth startHeight }

/-- A fully processed static-frame player (lines 476–494). -/
structure FrameProcessedPlayer where
  id : ℕ
  x : ℚ
  y : ℚ
  width : ℚ
  height : ℚ
  confidence : ℚ
  jersey : String
  team : String
  teamColor : String
  timestamp : ℚ
  isReferee : Bool
  movementPattern : FrameMovement
deriving DecidableEq, Repr

/-- Per-player normalisation of the static-frame path; player `idx`
consumes the twenty-one draws `rnd (21*idx) ..`. -/
def processFramePlayer (rnd : ℕ → ℚ) (tc : Option TeamColors) (timestamp : ℚ)
    (idx : ℕ) (p : FrameRawPlayer) : FrameProcessedPlayer :=
  { id := jsOrNat p.id (idx + 1),
    x := clamp 0 98 (p.x.getD 50),
    y := clamp 0 98 (p.y.getD 50),
    width := clamp 4 18 (p.width.getD 8),
    height := clamp 8 28 (p.height.getD 18),
    confidence := clamp (6/10) 1 (p.confidence.getD (8/10)),
    jersey := jsOrStr p.jersey (toString (idx + 1)),
    team := jsOrStr p.team (if idx % 2 = 0 then "home" else "away"),
    teamColor := jsOrStr3 p.teamColor
      (if p.team = some "home" then tc.map TeamColors.home else tc.map TeamColors.away)
      (if idx % 2 = 0 then "Blue" else "Red"),
    timestamp := timestamp,
    isReferee := false,
    movementPattern := generateRealisticMovementPatternWithBounds
      (fun k => rnd (21 * idx + k))
      (jsOrNum p.x 50) (jsOrNum p.y 50) (jsOrNum p.width 8) (jsOrNum p.height 18) }

/-- `analyzeStaticFrameForPlayers`: the attempt loop (budget 5) followed by
per-player normalisation of the chosen players list. -/
def analyzeStaticFrameForPlayers (rnd : ℕ → ℚ) (timestamp : ℚ)
    (rs : List (Option FrameAnalysis)) : List FrameProcessedPlayer :=
  let a := frameAttemptLoop 5 rs
  a.players.mapIdx fun idx p => processFramePlayer rnd a.teamColors timestamp idx p

/-! ## Upload prechecks (`uploadAndAnalyzeVideo`, server `uploadVideoToFilesAPI`) -/

/-- `MAX_FILE_SIZE = 2 GiB` (`geminiAI.ts` line 86). -/
def MAX_FILE_SIZE : ℕ := 2 * 1024 * 1024 * 1024

/-- Outcome of the client-side prechecks of `uploadAndAnalyzeVideo`
(lines 125–135), which run before any frame extraction or model call. -/
inductive ClientPrecheck where
  | badFormat
  | emptyFile
  | tooLarge
  | proceed
deriving DecidableEq, Repr

/-- The precheck sequence of `uploadAndAnalyzeVideo`: format, then
`size === 0`, then the 2 GiB cap. -/
def uploadAndAnalyzePrecheck (mimeIsVideo : Bool) (sizeBytes : ℕ) : ClientPrecheck :=
  if ¬mimeIsVideo then .badFormat
  else if sizeBytes = 0 then .emptyFile
  else if sizeBytes > MAX_FILE_SIZE then .tooLarge
  else .proceed

/-- A network request of the server-side uploader. -/
inductive UploadReq where
  | metadataPost (declaredSize : ℕ)
  | putChunk (offset length : ℕ) (finalize : Bool)
deriving DecidableEq, Repr

/-- The network requests the server-side `uploadVideoToFilesAPI`
(lines 545–654) issues for a payload of `fileSize` bytes when every
request succeeds.  The function performs no size validation: its first
action is always the metadata `POST`. -/
def serverUploadRequests (fileSize : ℕ) : List UploadReq :=
  .metadataPost fileSize ::
    (uploadPuts fileSize).map fun c => .putChunk c.offset c.length c.finalize

/-! ## Structured response extraction (`extractJsonFromText`, `extractJsonFromString`)

`index.ts` lines 695–751 and `geminiAI.ts` lines 99–114.  The extraction
cascade works on JS strings and `JSON.parse`; here strings are embedded as
`List Char` and `JSON.parse` / `JSON.stringify` as a recursive-descent
parser / serializer over a JSON value type (`JsonVal`).  The embedding covers
JSON with integer numerals and escape-free strings (the `wfJson`
side-condition asks that strings and keys contain no `"`), which is the
fragment the round-trip claim exercises; on non-JSON garbage the parser
fails just as `JSON.parse` throws.

The four methods of `extractJsonFromText`:
1. regex `\{[\s\S]*\}` (greedy: first `{` through last `}`) + parse;
2. regex for a triple-backtick fence with optional `json` tag, lazily
   capturing `\{[\s\S]*?\}` followed by `\s*` and the closing fence;
3. regex `\{[^{}]*(\{[^{}]*\}[^{}]*)*\}` (leftmost match of a
   brace-balanced block of nesting depth ≤ 2) + parse;
4. strip fence markers, strip a leading `[\w\s]*` run that ends right
   before a `{`, truncate after the first `}`, trim, parse.

`extractJsonFromString` (client) returns the substring from the first `{`
to the last `}` without parsing it. -/

/-- JSON values: integer numerals, escape-free strings. -/
inductive JsonVal where
  | jNull : JsonVal
  | jBool (b : Bool) : JsonVal
  | jNum (n : ℤ) : JsonVal
  | jStr (s : List Char) : JsonVal
  | jArr (items : List JsonVal) : JsonVal
  | jObj (entries : List (List Char × JsonVal)) : JsonVal

/-- The decimal digit character for `n % 10`. -/
def digitChar (n : ℕ) : Char := Char.ofNat (48 + n % 10)

/-- Decimal digits of `n`, most significant first (fuelled; `fuel > n`
always suffices). -/
def natDigitsAux : ℕ → ℕ → List Char
  | 0, _ => []
  | fuel + 1, n =>
    if n < 10 then [digitChar n]
    else natDigitsAux fuel (n / 10) ++ [digitChar (n % 10)]

/-- Decimal digits of `n` (e.g. `natDigits 120 = ['1','2','0']`). -/
def natDigits (n : ℕ) : List Char := natDigitsAux (n + 1) n

/-- Numeric value of a digit character. -/
def digitVal (c : Char) : ℕ := c.toNat - 48

/-- Value of a digit run, most significant first. -/
def digitsToNat (ds : List Char) : ℕ := ds.foldl (fun a c => a * 10 + digitVal c) 0

/-- `JSON.stringify` of an integer. -/
def serializeInt (k : ℤ) : List Char :=
  if k < 0 then '-' :: natDigits k.natAbs else natDigits k.toNat

mutual

/-- Canonical serialization (`JSON.stringify`, no whitespace). -/
def serializeJson : JsonVal → List Char
  | .jNull => ['n', 'u', 'l', 'l']
  | .jBool true => ['t', 'r', 'u', 'e']
  | .jBool false => ['f', 'a', 'l', 's', 'e']
  | .jNum k => serializeInt k
  | .jStr s => '"' :: s ++ ['"']
  | .jArr es => '[' :: serializeElems es ++ [']']
  | .jObj fs => '{' :: serializeFields fs ++ ['}']

def serializeElems : List JsonVal → List Char
  | [] => []
  | [e] => serializeJson e
  | e :: es => serializeJson e ++ ',' :: serializeElems es

def serializeFields : List (List Char × JsonVal) → List Char
  | [] => []
  | [(k, v)] => '"' :: k ++ '"' :: ':' :: serializeJson v
  | (k, v) :: fs => '"' :: k ++ '"' :: ':' :: serializeJson v ++ ',' :: serializeFields fs

end

mutual

/-- Fuel budget a value needs in the parser below. -/
def sizeJ : JsonVal → ℕ
  | .jNull => 1
  | .jBool _ => 1
  | .jNum _ => 1
  | .jStr _ => 1
  | .jArr es => 1 + sizeE es
  | .jObj fs => 1 + sizeF fs

def sizeE : List JsonVal → ℕ
  | [] => 0
  | e :: es => 1 + sizeJ e + sizeE es

def sizeF : List (List Char × JsonVal) → ℕ
  | [] => 0
  | (_, v) :: fs => 1 + sizeJ v + sizeF fs

end

mutual

/-- Well-formedness for the round trip: strings and keys contain no `"`. -/
def wfJson : JsonVal → Bool
  | .jNull => true
  | .jBool _ => true
  | .jNum _ => true
  | .jStr s => s.all fun c => !(c == '"')
  | .jArr es => wfElems es
  | .jObj fs => wfFields fs

def wfElems : List JsonVal → Bool
  | [] => true
  | e :: es => wfJson e && wfElems es

def wfFields : List (List Char × JsonVal) → Bool
  | [] => true
  | (k, v) :: fs => (k.all fun c => !(c == '"')) && wfJson v && wfFields fs

end

/-- Parse a string body after the opening `"`, up to the closing `"`. -/
def parseStringBody (s : List Char) : Option (List Char × List Char) :=
  match s.dropWhile (fun c => !(c == '"')) with
  | '"' :: r => some (s.takeWhile (fun c => !(c == '"')), r)
  | _ => none

/-- Parse an integer numeral (optional minus, digit run). -/
def parseNumber (s : List Char) : Option (ℤ × List Char) :=
  match s with
  | [] => none
  | c :: t =>
    if c = '-' then
      if (t.takeWhile Char.isDigit).isEmpty then none
      else some (-(digitsToNat (t.takeWhile Char.isDigit) : ℤ), t.dropWhile Char.isDigit)
    else
      if ((c :: t).takeWhile Char.isDigit).isEmpty then none
      else some ((digitsToNat ((c :: t).takeWhile Char.isDigit) : ℤ),
        (c :: t).dropWhile Char.isDigit)

mutual

/-- Recursive-descent `JSON.parse` (whitespace-free texts), fuelled. -/
def parseValue : ℕ → List Char → Option (JsonVal × List Char)
  | 0, _ => none
  | fuel + 1, s =>
    match s with
    | [] => none
    | c :: t =>
      if c = 'n' then
        match t with
        | 'u' :: 'l' :: 'l' :: r => some (.jNull, r)
        | _ => none
      else if c = 't' then
        match t with
        | 'r' :: 'u' :: 'e' :: r => some (.jBool true, r)
        | _ => none
      else if c = 'f' then
        match t with
        | 'a' :: 'l' :: 's' :: 'e' :: r => some (.jBool false, r)
        | _ => none
      else if c = '"' then
        match parseStringBody t with
        | some (a, r) => some (.jStr a, r)
        | none => none
      else if c = '[' then
        match t with
        | ']' :: r => some (.jArr [], r)
        | _ =>
          match parseElems fuel t with
          | some (es, r) => some (.jArr es, r)
          | none => none
      else if c = '{' then
        match t with
        | '}' :: r => some (.jObj [], r)
        | _ =>
          match parseFields fuel t with
          | some (fs, r) => some (.jObj fs, r)
          | none => none
      else if c = '-' ∨ c.isDigit then
        match parseNumber (c :: t) with
        | some (k, r) => some (.jNum k, r)
        | none => none
      else none

/-- Elements of a non-empty array, consuming the closing `]`. -/
def parseElems : ℕ → List Char → Option (List JsonVal × List Char)
  | 0, _ => none
  | fuel + 1, s =>
    match parseValue fuel s with
    | some (v, r) =>
      match r with
      | ',' :: r2 =>
        match parseElems fuel r2 with
        | some (es, r3) => some (v :: es, r3)
        | none => none
      | ']' :: r2 => some ([v], r2)
      | _ => none
    | none => none

/-- Fields of a non-empty object, consuming the closing `}`. -/
def parseFields : ℕ → List Char → Option (List (List Char × JsonVal) × List Char)
  | 0, _ => none
  | fuel + 1, s =>
    match s with
    | '"' :: t =>
      match parseStringBody t with
      | some (k, r) =>
        match r with
        | ':' :: r2 =>
          match parseValue fuel r2 with
          | some (v, r3) =>
            match r3 with
            | ',' :: r4 =>
              match parseFields fuel r4 with
              | some (fs, r5) => some ((k, v) :: fs, r5)
              | none => none
            | '}' :: r4 => some ([(k, v)], r4)
            | _ => none
          | none => none
        | _ => none
      | none => none
    | _ => none

end

/-- `JSON.parse`: a full-input parse of a single value. -/
def parseJson (s : List Char) : Option JsonVal :=
  match parseValue (s.length + 1) s with
  | some (j, []) => some j
  | _ => none

/-- Method 1 / `extractJsonFromString`'s core: the segment from the first
`{` through the last `}` (empty when the regex `\{[\s\S]*\}` has no
match). -/
def braceCore (s : List Char) : List Char :=
  ((s.dropWhile fun c => !(c == '{')).reverse.dropWhile fun c => !(c == '}')).reverse

/-- Method 1 of `extractJsonFromText`: parse the first-`{`-to-last-`}`
segment. -/
def method1 (s : List Char) : Option JsonVal := parseJson (braceCore s)

/-- `extractJsonFromString` (`geminiAI.ts` lines 99–114): the same segment,
returned unparsed; error when there is no `{` properly before a `}`. -/
def extractJsonFromString (s : List Char) : Option (List Char) :=
  if 2 ≤ (braceCore s).length then some (braceCore s) else none

/-- Does `pat` occur at the head of `s`? -/
def leadsWith : List Char → List Char → Bool
  | [], _ => true
  | _ :: _, [] => false
  | p :: ps, c :: cs => p == c && leadsWith ps cs

/-- JS `\s` on the characters that occur here. -/
def wsChar (c : Char) : Bool := c == ' ' || c == '\n' || c == '\t' || c == '\r'

/-- The fence marker. -/
def fenceChars : List Char := "```".toList

/-- The tagged fence marker. -/
def jsonFenceChars : List Char := "```json".toList

/-- Lazy body of method 2's capture `(\{[\s\S]*?\})\s*` + fence: collect
characters until the first `}` that is followed (after whitespace) by a
closing fence. -/
def fenceBody : List Char → List Char → Option (List Char)
  | [], _ => none
  | c :: t, acc =>
    if c == '}' then
      if leadsWith fenceChars (t.dropWhile wsChar) then some (('}' :: acc).reverse)
      else fenceBody t ('}' :: acc)
    else fenceBody t (c :: acc)

/-- Method 2's pattern anchored at the head of `s`. -/
def tryFenceAt (s : List Char) : Option (List Char) :=
  if leadsWith fenceChars s then
    let t := s.drop 3
    let t1 := if leadsWith ("json".toList) t then t.drop 4 else t
    match t1.dropWhile wsChar with
    | '{' :: u => fenceBody u ['{']
    | _ => none
  else none

/-- Leftmost full match of method 2's fence pattern. -/
def firstFence : List Char → Option (List Char)
  | [] => none
  | c :: t =>
    match tryFenceAt (c :: t) with
    | some m => some m
    | none => firstFence t

/-- Method 2 of `extractJsonFromText`: parse the first fenced capture. -/
def method2 (s : List Char) : Option JsonVal :=
  match firstFence s with
  | some m => parseJson m
  | none => none

mutual

/-- Method 3's pattern after the opening `{`, at nesting depth 1:
`[^{}]*` runs, depth-2 groups, ends at the first `}` back at depth 1. -/
def scanD1 : List Char → List Char → Option (List Char)
  | [], _ => none
  | c :: t, acc =>
    if c == '}' then some (('}' :: acc).reverse)
    else if c == '{' then scanD2 t ('{' :: acc)
    else scanD1 t (c :: acc)

/-- Depth 2: a further `{` makes the pattern fail (depth ≤ 2 only). -/
def scanD2 : List Char → List Char → Option (List Char)
  | [], _ => none
  | c :: t, acc =>
    if c == '}' then scanD1 t ('}' :: acc)
    else if c == '{' then none
    else scanD2 t (c :: acc)

end

/-- Method 3's pattern anchored at the head of the input. -/
def matchL2At : List Char → Option (List Char)
  | '{' :: t => scanD1 t ['{']
  | _ => none

/-- Leftmost match of method 3's pattern. -/
def firstL2 : List Char → Option (List Char)
  | [] => none
  | c :: t =>
    match matchL2At (c :: t) with
    | some m => some m
    | none => firstL2 t

/-- Method 3 of `extractJsonFromText`. -/
def method3 (s : List Char) : Option JsonVal :=
  match firstL2 s with
  | some m => parseJson m
  | none => none

/-- `String.replace(pat, '')` for all occurrences, fuelled by the input
length (each step consumes at least one character). -/
def removeAllAux (pat : List Char) : ℕ → List Char → List Char
  | 0, s => s
  | _ + 1, [] => []
  | fuel + 1, c :: t =>
    if leadsWith pat (c :: t) then removeAllAux pat fuel ((c :: t).drop pat.length)
    else c :: removeAllAux pat fuel t

def removeAll (pat s : List Char) : List Char := removeAllAux pat s.length s

/-- JS `\w` or `\s` (the leading-prose stripper's character class). -/
def isWordSpace (c : Char) : Bool := c.isAlphanum || c == '_' || wsChar c

/-- `replace(/^\s*[\w\s]*?(?=\{)/, '')`: the anchored match removes the
prefix before the first `{` exactly when that prefix consists of word and
whitespace characters only (and a `{` exists). -/
def stripLeadingProse (s : List Char) : List Char :=
  if (s.takeWhile fun c => !(c == '{')).length < s.length ∧
      (s.takeWhile fun c => !(c == '{')).all isWordSpace then
    s.dropWhile fun c => !(c == '{')
  else s

/-- `replace(/\}[\s\S]*$/, '}')`: keep through the first `}`, drop the
rest. -/
def truncAfterBrace (s : List Char) : List Char :=
  (s.takeWhile fun c => !(c == '}')) ++ (if s.any (fun c => c == '}') then ['}'] else [])

/-- `String.trim()`. -/
def trimWs (s : List Char) : List Char :=
  ((s.dropWhile wsChar).reverse.dropWhile wsChar).reverse

/-- Method 4 of `extractJsonFromText`: clean fence markers and surrounding
prose, then parse. -/
def method4 (s : List Char) : Option JsonVal :=
  parseJson (trimWs (truncAfterBrace (stripLeadingProse
    (removeAll fenceChars (removeAll jsonFenceChars s)))))

/-- `extractJsonFromText` (`index.ts` lines 695–751): the four methods in
order, first success wins; all four failing is the thrown
`无法从AI响应中提取有效的JSON数据` error (`none`). -/
def extractJsonFromText (s : List Char) : Option JsonVal :=
  match method1 s with
  | some j => some j
  | none =>
    match method2 s with
    | some j => some j
    | none =>
      match method3 s with
      | some j => some j
      | none => method4 s

/-- The JSON object `{"a":1}` of the C2 counterexample. -/
def obj1 : JsonVal := .jObj [(['a'], .jNum 1)]

/-- The C2 counterexample input: prose that itself contains braces,
followed by the serialized object. -/
def noisyInput : List Char := "see {braces} ahead ".toList ++ serializeJson obj1

/-! # Part 2: theorems -/

theorem clamp_le {lo hi : ℚ} (x : ℚ) (h : lo ≤ hi) : clamp lo hi x ≤ hi := by
  simp only [clamp, max_le_iff]
  exact ⟨h, min_le_left _ _⟩

theorem le_clamp (lo hi x : ℚ) : lo ≤ clamp lo hi x := le_max_left _ _

/-! ## C1: chunked upload -/

theorem uploadPuts_getElem? (fileSize : ℕ) (h : MAX_CHUNK_SIZE < fileSize) (i : ℕ)
    (hi : i < numChunks fileSize) :
    (uploadPuts fileSize)[i]? =
      some { offset := i * MAX_CHUNK_SIZE,
             length := min (i * MAX_CHUNK_SIZE + MAX_CHUNK_SIZE) fileSize - i * MAX_CHUNK_SIZE,
             finalize := decide (i = numChunks fileSize - 1) } := by
  simp only [uploadPuts, if_neg (not_le.mpr h)]
  rw [List.getElem?_map, List.getElem?_range hi]
  rfl

theorem ceil_bounds (fileSize : ℕ) (h : MAX_CHUNK_SIZE < fileSize) :
    fileSize ≤ numChunks fileSize * MAX_CHUNK_SIZE ∧
    (numChunks fileSize - 1) * MAX_CHUNK_SIZE < fileSize := by
  simp only [numChunks, MAX_CHUNK_SIZE] at *
  omega

/-- C1: for an oversize payload the uploader issues exactly
`⌈fileSize / MAX_CHUNK_SIZE⌉` PUTs; the i-th PUT has upload offset
`i * MAX_CHUNK_SIZE` and covers the bytes from its offset up to the next
multiple of the chunk size (capped by `fileSize`); every chunk except the
last ends exactly at the next chunk's offset (so offsets are strictly
increasing and contiguous); the last chunk ends exactly at `fileSize`; and
the finalize command appears on the last PUT and only on the last PUT. -/
theorem chunked_upload_correct (fileSize : ℕ) (h : MAX_CHUNK_SIZE < fileSize) :
    (uploadPuts fileSize).length = numChunks fileSize ∧
    (∀ i, i < numChunks fileSize →
      (uploadPuts fileSize)[i]? =
        some { offset := i * MAX_CHUNK_SIZE,
               length := min (i * MAX_CHUNK_SIZE + MAX_CHUNK_SIZE) fileSize
                 - i * MAX_CHUNK_SIZE,
               finalize := decide (i = numChunks fileSize - 1) }) ∧
    (∀ i, i + 1 < numChunks fileSize →
      i * MAX_CHUNK_SIZE + (min (i * MAX_CHUNK_SIZE + MAX_CHUNK_SIZE) fileSize
        - i * MAX_CHUNK_SIZE) = (i + 1) * MAX_CHUNK_SIZE) ∧
    ((numChunks fileSize - 1) * MAX_CHUNK_SIZE +
      (min ((numChunks fileSize - 1) * MAX_CHUNK_SIZE + MAX_CHUNK_SIZE) fileSize
        - (numChunks fileSize - 1) * MAX_CHUNK_SIZE) = fileSize) := by
  obtain ⟨hub, hlb⟩ := ceil_bounds fileSize h
  have hpos : 0 < numChunks fileSize := by
    rcases Nat.eq_zero_or_pos (numChunks fileSize) with h0 | h0
    · rw [h0, Nat.zero_mul] at hub
      exact absurd hub (by omega)
    · exact h0
  refine ⟨?_, uploadPuts_getElem? fileSize h, ?_, ?_⟩
  · simp [uploadPuts, if_neg (not_le.mpr h)]
  · intro i hi
    have hle : i * MAX_CHUNK_SIZE + MAX_CHUNK_SIZE ≤ fileSize := by
      have h1 : i + 1 ≤ numChunks fileSize - 1 := by omega
      calc i * MAX_CHUNK_SIZE + MAX_CHUNK_SIZE = (i + 1) * MAX_CHUNK_SIZE := by
            rw [Nat.succ_mul]
        _ ≤ (numChunks fileSize - 1) * MAX_CHUNK_SIZE := Nat.mul_le_mul_right _ h1
        _ ≤ fileSize := le_of_lt hlb
    rw [min_eq_left hle, Nat.add_sub_cancel_left, Nat.succ_mul]
  · have hup : fileSize ≤ (numChunks fileSize - 1) * MAX_CHUNK_SIZE + MAX_CHUNK_SIZE := by
      calc fileSize ≤ numChunks fileSize * MAX_CHUNK_SIZE := hub
        _ = (numChunks fileSize - 1 + 1) * MAX_CHUNK_SIZE := by rw [Nat.sub_add_cancel hpos]
        _ = (numChunks fileSize - 1) * MAX_CHUNK_SIZE + MAX_CHUNK_SIZE := by
            rw [Nat.succ_mul]
    rw [min_eq_right hup, Nat.add_sub_cancel' (le_of_lt hlb)]

theorem chunked_upload_correct_witness :
    MAX_CHUNK_SIZE < 120 * 1024 * 1024 ∧
    (uploadPuts (120 * 1024 * 1024)).length = numChunks (120 * 1024 * 1024) ∧
    numChunks (120 * 1024 * 1024) = 3 := by
  refine ⟨by norm_num [MAX_CHUNK_SIZE], ?_, by norm_num [numChunks, MAX_CHUNK_SIZE]⟩
  exact (chunked_upload_correct (120 * 1024 * 1024) (by norm_num [MAX_CHUNK_SIZE])).1

/-! ## C3: transient errors during status polling -/

/-- C3 counterexample: the analyze-large-video poller aborts and propagates
on the first transient error.  With response sequence
`[HTTP 503, ACTIVE]` it returns the propagated status-check error instead
of continuing to the `ACTIVE` poll, refuting the claim that the readiness
poller never propagates transient poll failures. -/
theorem poller_aborts_on_transient_error :
    waitForFileProcessing1 [.httpError 503, .ok "ACTIVE"] = .reqFailed 503 ∧
    waitForFileProcessing1 [.ok "ACTIVE"] = .active ∧
    waitForFileProcessing1 [.netError, .ok "ACTIVE"] = .netFailed := by
  exact ⟨rfl, rfl, rfl⟩

/-- C3 amended: the analyze-player-performance poller (lines 657–692) never
aborts on a transient poll failure — a non-2xx status or network error is
swallowed and polling simply continues on the remaining responses; in fact
its only outcomes are `ACTIVE`-success or deadline timeout (the `FAILED`
throw is caught by the poller's own `catch`, so even a reported failure
does not end the loop).  The analyze-large-video poller (lines 135–161),
by contrast, propagates the first transient failure. -/
theorem poller2_continues_on_transient_error :
    (∀ s rest, waitForFileProcessing2 (.httpError s :: rest) = waitForFileProcessing2 rest) ∧
    (∀ rest, waitForFileProcessing2 (.netError :: rest) = waitForFileProcessing2 rest) ∧
    (∀ resps, waitForFileProcessing2 resps = .active ∨
      waitForFileProcessing2 resps = .timeout) := by
  refine ⟨fun s rest => rfl, fun rest => rfl, fun resps => ?_⟩
  induction resps with
  | nil => exact Or.inr rfl
  | cons r rest ih =>
    cases r with
    | httpError s => exact ih
    | netError => exact ih
    | ok st =>
      by_cases h : st = "ACTIVE"
      · simp [waitForFileProcessing2, h]
      · simpa [waitForFileProcessing2, h] using ih

/-! ## C8: poll interval backoff -/

/-- C8 counterexample: the analyze-large-video poller
(`waitForFileProcessing`, lines 135–161) sleeps a constant 5000 ms; its
second interval is not the first interval increased by the factor 1.2, so
the claim that the readiness poller's interval increases multiplicatively
by ≈1.2 after each poll fails for this poller. -/
theorem pollInterval1_not_multiplicative :
    pollInterval1 0 = 5000 ∧ pollInterval1 1 = 5000 ∧
    pollInterval1 1 ≠ pollInterval1 0 * (6 / 5) := by
  refine ⟨rfl, rfl, ?_⟩
  norm_num [pollInterval1]

theorem checkIntervalSeq_bounds (n : ℕ) :
    5000 ≤ checkIntervalSeq n ∧ checkIntervalSeq n ≤ 30000 := by
  induction n with
  | zero => norm_num [checkIntervalSeq]
  | succ n ih =>
    obtain ⟨hlo, hhi⟩ := ih
    constructor
    · rw [checkIntervalSeq, le_min_iff]
      constructor
      · nlinarith
      · norm_num
    · exact min_le_right _ _

/-- C8 amended: for any sequence of successful `PROCESSING` responses, the
analyze-player-performance poller's interval sequence starts at 5000 ms,
follows `interval(n+1) = min(interval(n) * 1.2, 30000)`, is non-decreasing,
and stays within `[5000, 30000]` ms; the analyze-large-video poller instead
sleeps a constant 5000 ms (see the counterexample). -/
theorem poll_interval_backoff :
    checkIntervalSeq 0 = 5000 ∧
    (∀ n, checkIntervalSeq (n + 1) = min (checkIntervalSeq n * (6 / 5)) 30000) ∧
    (∀ n, checkIntervalSeq n ≤ checkIntervalSeq (n + 1)) ∧
    (∀ n, 5000 ≤ checkIntervalSeq n ∧ checkIntervalSeq n ≤ 30000) := by
  refine ⟨rfl, fun n => rfl, fun n => ?_, checkIntervalSeq_bounds⟩
  obtain ⟨hlo, hhi⟩ := checkIntervalSeq_bounds n
  rw [checkIntervalSeq, le_min_iff]
  constructor
  · nlinarith
  · exact hhi

/-! ## C10: performance validator bounds -/

theorem floor_mul_bounds (r : ℚ) (m : ℕ) (hm : 0 < m) (h0 : 0 ≤ r) (h1 : r < 1) :
    (0 : ℚ) ≤ ((⌊r * m⌋ : ℤ) : ℚ) ∧ ((⌊r * m⌋ : ℤ) : ℚ) ≤ (m : ℚ) - 1 := by
  have hmq : (0 : ℚ) < (m : ℚ) := by exact_mod_cast hm
  have hnn : (0 : ℤ) ≤ ⌊r * m⌋ := Int.floor_nonneg.mpr (mul_nonneg h0 (le_of_lt hmq))
  have hlt : ⌊r * (m : ℚ)⌋ < (m : ℤ) := by
    rw [Int.floor_lt]
    push_cast
    exact mul_lt_of_lt_one_left hmq h1
  constructor
  · exact_mod_cast hnn
  · have h19 : ⌊r * (m : ℚ)⌋ ≤ (m : ℤ) - 1 := by omega
    have h19q : ((⌊r * (m : ℚ)⌋ : ℤ) : ℚ) ≤ ((m : ℚ) - 1 : ℚ) := by exact_mod_cast h19
    linarith

/-- C10: the per-player performance validator clamps every numeric field
into its fixed range — `overall`, `speed`, `passing`, `positioning` and
`passAccuracy` into [0,100], `touches` into [0,500], `distance` into
[0,20], `topSpeed` into [0,50] and each `dominantFoot` percentage into
[0,100] — substituting the fixed defaults (75, 80, 78, 82, 120, 7.5, 22.5,
85, 65, 35) when a field is missing or non-numeric; `dominantFoot.right`
and `dominantFoot.left` are clamped independently and their sum is not
forced to 100: the parsed input `{right: 70, left: 70}` is returned with
sum 140. -/
theorem performance_validator_bounds :
    (∀ (now : ℕ) (dateParses : Bool) (d : RawPerformance),
      0 ≤ (validatedData now dateParses d).overall ∧
        (validatedData now dateParses d).overall ≤ 100 ∧
      0 ≤ (validatedData now dateParses d).speed ∧
        (validatedData now dateParses d).speed ≤ 100 ∧
      0 ≤ (validatedData now dateParses d).passing ∧
        (validatedData now dateParses d).passing ≤ 100 ∧
      0 ≤ (validatedData now dateParses d).positioning ∧
        (validatedData now dateParses d).positioning ≤ 100 ∧
      0 ≤ (validatedData now dateParses d).touches ∧
        (validatedData now dateParses d).touches ≤ 500 ∧
      0 ≤ (validatedData now dateParses d).distance ∧
        (validatedData now dateParses d).distance ≤ 20 ∧
      0 ≤ (validatedData now dateParses d).topSpeed ∧
        (validatedData now dateParses d).topSpeed ≤ 50 ∧
      0 ≤ (validatedData now dateParses d).passAccuracy ∧
        (validatedData now dateParses d).passAccuracy ≤ 100 ∧
      0 ≤ (validatedData now dateParses d).footRight ∧
        (validatedData now dateParses d).footRight ≤ 100 ∧
      0 ≤ (validatedData now dateParses d).footLeft ∧
        (validatedData now dateParses d).footLeft ≤ 100) ∧
    ((validatedData 0 false rawAllMissing).overall = 75 ∧
      (validatedData 0 false rawAllMissing).speed = 80 ∧
      (validatedData 0 false rawAllMissing).passing = 78 ∧
      (validatedData 0 false rawAllMissing).positioning = 82 ∧
      (validatedData 0 false rawAllMissing).touches = 120 ∧
      (validatedData 0 false rawAllMissing).distance = 75 / 10 ∧
      (validatedData 0 false rawAllMissing).topSpeed = 225 / 10 ∧
      (validatedData 0 false rawAllMissing).passAccuracy = 85 ∧
      (validatedData 0 false rawAllMissing).footRight = 65 ∧
      (validatedData 0 false rawAllMissing).footLeft = 35) ∧
    ((validatedData 0 false rawFoot7070).footRight = 70 ∧
      (validatedData 0 false rawFoot7070).footLeft = 70 ∧
      (validatedData 0 false rawFoot7070).footRight +
        (validatedData 0 false rawFoot7070).footLeft ≠ 100) := by
  refine ⟨?_, ?_, ?_⟩
  · intro now dateParses d
    refine ⟨le_clamp _ _ _, clamp_le _ (by norm_num), le_clamp _ _ _, clamp_le _ (by norm_num),
      le_clamp _ _ _, clamp_le _ (by norm_num), le_clamp _ _ _, clamp_le _ (by norm_num),
      le_clamp _ _ _, clamp_le _ (by norm_num), le_clamp _ _ _, clamp_le _ (by norm_num),
      le_clamp _ _ _, clamp_le _ (by norm_num), le_clamp _ _ _, clamp_le _ (by norm_num),
      le_clamp _ _ _, clamp_le _ (by norm_num), le_clamp _ _ _, clamp_le _ (by norm_num)⟩
  · norm_num [validatedData, rawAllMissing, jsOrNum, clamp, min_def, max_def]
  · norm_num [validatedData, rawFoot7070, jsOrNum, clamp, min_def, max_def]

/-! ## C4: retry exhaustion, fallback, and the (missing) degraded flag -/

theorem attemptLoop_all_fail (fuel : ℕ) :
    ∀ rs : List (Option ServerAnalysis), (∀ r ∈ rs, attemptSucceeds r = false) →
      attemptLoop (fuel + 1) rs = (fuel + 1, fallbackAnalysis) := by
  induction fuel with
  | zero =>
    intro rs h
    match rs with
    | [] => rfl
    | none :: t => rfl
    | some a :: t =>
      have ha := h (some a) (List.mem_cons_self _ _)
      simp only [attemptSucceeds, Bool.not_eq_false'] at ha
      simp [attemptLoop, ha]
  | succ fuel ih =>
    intro rs h
    match rs with
    | [] =>
      have ht := ih [] (by intro r hr; cases hr)
      show ((attemptLoop (fuel + 1) [].tail).1 + 1, (attemptLoop (fuel + 1) [].tail).2)
        = (fuel + 1 + 1, fallbackAnalysis)
      rw [List.tail_nil, ht]
    | none :: t =>
      have ht := ih t (fun r hr => h r (List.mem_cons_of_mem _ hr))
      show ((attemptLoop (fuel + 1) t).1 + 1, (attemptLoop (fuel + 1) t).2)
        = (fuel + 1 + 1, fallbackAnalysis)
      rw [ht]
    | some a :: t =>
      have ha := h (some a) (List.mem_cons_self _ _)
      simp only [attemptSucceeds, Bool.not_eq_false'] at ha
      have ht := ih t (fun r hr => h r (List.mem_cons_of_mem _ hr))
      simp only [attemptLoop, List.headD, List.tail, ha, if_true, ht]

/-- C4 counterexample: feed the detection orchestrator three failing
inference attempts.  It does return the non-empty fallback configuration
(four players) — but the response exposes no degraded-mode flag: the body
is `{success: true, players, teamColors}`, byte-for-byte the shape of a
successful analysis, with no warning key, refuting the claim that the
caller receives a degraded-mode flag. -/
theorem detection_fallback_no_degraded_flag :
    (serveAnalyzeLargeVideo (fun _ => 1/2) [none, none, none]).success = true ∧
    (serveAnalyzeLargeVideo (fun _ => 1/2) [none, none, none]).players.length = 4 ∧
    (serveAnalyzeLargeVideo (fun _ => 1/2) [none, none, none]).warning = none := by
  refine ⟨rfl, ?_, rfl⟩
  show ((analyzeVideoAttempts [none, none, none]).2.players.mapIdx _).length = 4
  rw [List.length_mapIdx]
  rfl

/-- C4 amended: when every inference attempt fails, `analyzeVideoWithFilesAPI`
makes exactly `maxAttempts = 3` attempts and then returns the non-empty
(four-player) hard-coded fallback `DetectionResultSet` instead of a hard
failure — but with no degraded-mode flag: the detection response carries
`success = true` and no warning key, indistinguishable from a real
analysis.  (Only the separate per-player performance path attaches a
warning to its fallback.) -/
theorem detection_fallback_on_exhaustion (rnd : ℕ → ℚ) (rs : List (Option ServerAnalysis))
    (h : ∀ r ∈ rs, attemptSucceeds r = false) :
    (analyzeVideoWithFilesAPI rnd rs).1 = maxAttempts ∧
    (analyzeVideoWithFilesAPI rnd rs).2.1.length = 4 ∧
    (analyzeVideoWithFilesAPI rnd rs).2.1 ≠ [] ∧
    (serveAnalyzeLargeVideo rnd rs).success = true ∧
    (serveAnalyzeLargeVideo rnd rs).warning = none ∧
    (servePerformanceOnAnalysisFailure "any" 0 rnd).2.2 ≠ none := by
  have hl : attemptLoop 3 rs = (3, fallbackAnalysis) := attemptLoop_all_fail 2 rs h
  have h1 : analyzeVideoAttempts rs = (3, fallbackAnalysis) := hl
  refine ⟨?_, ?_, ?_, rfl, rfl, by simp [servePerformanceOnAnalysisFailure]⟩
  · show (analyzeVideoAttempts rs).1 = maxAttempts
    rw [h1]
    rfl
  · show ((analyzeVideoAttempts rs).2.players.mapIdx _).length = 4
    rw [h1, List.length_mapIdx]
    rfl
  · show (analyzeVideoAttempts rs).2.players.mapIdx _ ≠ []
    rw [h1]
    simp [fallbackAnalysis]

theorem detection_fallback_on_exhaustion_witness :
    (analyzeVideoWithFilesAPI (fun _ => 1/2) [none, none, none]).1 = maxAttempts ∧
    (analyzeVideoWithFilesAPI (fun _ => 1/2) [none, none, none]).2.1.length = 4 ∧
    (analyzeVideoWithFilesAPI (fun _ => 1/2) [none, none, none]).2.1 ≠ [] ∧
    (serveAnalyzeLargeVideo (fun _ => 1/2) [none, none, none]).success = true ∧
    (serveAnalyzeLargeVideo (fun _ => 1/2) [none, none, none]).warning = none ∧
    (servePerformanceOnAnalysisFailure "any" 0 (fun _ => 1/2)).2.2 ≠ none :=
  detection_fallback_on_exhaustion (fun _ => 1/2) [none, none, none]
    (by
      intro r hr
      simp only [List.mem_cons, List.not_mem_nil, or_false] at hr
      rcases hr with rfl | rfl | rfl <;> rfl)

/-! ## C5: out-of-range coordinates are dropped, not clamped -/

/-- A raw candidate with `x = 150` and every other field valid. -/
def cx150 : FrameRawPlayer :=
  { id := some 9, x := some 150, y := some 40, width := some 8, height := some 18,
    confidence := some (9/10), jersey := some "9", team := some "home",
    teamColor := some "Blue", isReferee := false }

/-- A raw candidate that passes the filter with `x = 98`, `width = 2`. -/
def survivor98 : FrameRawPlayer :=
  { id := some 1, x := some 98, y := some 40, width := some 2, height := some 20,
    confidence := some (9/10), jersey := some "1", team := some "home",
    teamColor := some "Blue", isReferee := false }

/-- C5 counterexample: the raw candidate with `x = 150` (all other fields
valid) is dropped by the validity filter of `analyzeStaticFrameForPlayers`
— it never reaches the clamping map, refuting "clamped, never dropped
merely for being out of range".  Moreover the output invariant
`x ≤ 100 - width` claimed for normalisation fails even for candidates that
do survive: the survivor with raw `x = 98, width = 2` is clamped to
`x = 98, width = 4`, and `98 > 100 - 4`. -/
theorem out_of_range_candidate_dropped :
    validPlayer cx150 = false ∧
    [cx150].filter validPlayer = [] ∧
    validPlayer survivor98 = true ∧
    (processFramePlayer (fun _ => 1/2) (some { home := "Blue", away := "Red" }) 10 0
      survivor98).x = 98 ∧
    (processFramePlayer (fun _ => 1/2) (some { home := "Blue", away := "Red" }) 10 0
      survivor98).width = 4 ∧
    ¬((processFramePlayer (fun _ => 1/2) (some { home := "Blue", away := "Red" }) 10 0
        survivor98).x ≤
      100 - (processFramePlayer (fun _ => 1/2) (some { home := "Blue", away := "Red" }) 10 0
        survivor98).width) := by
  refine ⟨by decide, by decide, by norm_num [validPlayer, survivor98], ?_, ?_, ?_⟩
  · show clamp 0 98 ((survivor98.x).getD 50) = 98
    norm_num [survivor98, clamp, min_def, max_def]
  · show clamp 4 18 ((survivor98.width).getD 8) = 4
    norm_num [survivor98, clamp, min_def, max_def]
  · show ¬(clamp 0 98 ((survivor98.x).getD 50) ≤ 100 - clamp 4 18 ((survivor98.width).getD 8))
    norm_num [survivor98, clamp, min_def, max_def]

/-- C5 amended: a raw candidate whose `x` is out of range (e.g. `x = 150`)
is dropped by the validity filter regardless of its other fields — it is
never clamped into range; for the candidates that do pass the filter, the
normalisation map clamps `x` into [0,98], `y` into [0,98], `width` into
[4,18] and `height` into [8,28] (and the combined bound `x ≤ 100 - width`
is not re-established after clamping, see the counterexample). -/
theorem out_of_range_x_dropped_survivors_clamped :
    (∀ (id : Option ℕ) (y w hgt conf : Option ℚ) (j t tcol : Option String) (ref : Bool),
      validPlayer
        { id := id, x := some 150, y := y, width := w, height := hgt,
          confidence := conf, jersey := j, team := t, teamColor := tcol,
          isReferee := ref } = false) ∧
    (∀ (rnd : ℕ → ℚ) (tc : Option TeamColors) (ts : ℚ) (idx : ℕ) (p : FrameRawPlayer),
      0 ≤ (processFramePlayer rnd tc ts idx p).x ∧
      (processFramePlayer rnd tc ts idx p).x ≤ 98 ∧
      0 ≤ (processFramePlayer rnd tc ts idx p).y ∧
      (processFramePlayer rnd tc ts idx p).y ≤ 98 ∧
      4 ≤ (processFramePlayer rnd tc ts idx p).width ∧
      (processFramePlayer rnd tc ts idx p).width ≤ 18 ∧
      8 ≤ (processFramePlayer rnd tc ts idx p).height ∧
      (processFramePlayer rnd tc ts idx p).height ≤ 28) := by
  constructor
  · intro id y w hgt conf j t tcol ref
    simp only [validPlayer]
    cases ref
    · simp only [Bool.false_eq_true, if_false, Option.getD_some]
      split_ifs with h1 h2 h3 h4
      · rfl
      · rfl
      · rfl
      · rfl
      · exact absurd (Or.inr (Or.inl (by norm_num))) h2
    · rfl
  · intro rnd tc ts idx p
    exact ⟨le_clamp _ _ _, clamp_le _ (by norm_num), le_clamp _ _ _, clamp_le _ (by norm_num),
      le_clamp _ _ _, clamp_le _ (by norm_num), le_clamp _ _ _, clamp_le _ (by norm_num)⟩

/-! ## C6: referees never appear in the normalized output -/

/-- C6: every member of the normalized static-frame output has
`isReferee = false` (the normalisation map hard-sets it), and any raw
candidate flagged `isReferee = true` is rejected by the validity filter
regardless of every other field — so referee detections are dropped, never
surfaced. -/
theorem referees_filtered_from_output :
    (∀ (rnd : ℕ → ℚ) (ts : ℚ) (rs : List (Option FrameAnalysis)),
      (analyzeStaticFrameForPlayers rnd ts rs).all (fun q => !q.isReferee) = true) ∧
    (∀ p : FrameRawPlayer, validPlayer { p with isReferee := true } = false) := by
  constructor
  · intro rnd ts rs
    rw [List.all_eq_true]
    intro q hq
    rw [show analyzeStaticFrameForPlayers rnd ts rs
        = (frameAttemptLoop 5 rs).players.mapIdx
            (fun idx p => processFramePlayer rnd (frameAttemptLoop 5 rs).teamColors ts idx p)
      from rfl, List.mapIdx_eq_enum_map, List.mem_map] at hq
    obtain ⟨⟨i, p⟩, _, rfl⟩ := hq
    rfl
  · intro p
    simp [validPlayer]

/-! ## C9: empty payloads and the upload prechecks -/

/-- C9 counterexample: the server-side `uploadVideoToFilesAPI` performs no
size validation at all — for a zero-byte payload its first action is the
metadata `POST` (declaring size 0), followed by the single finalizing PUT,
so on this upload path an empty asset is *not* rejected before a network
request is issued. -/
theorem server_upload_no_empty_check :
    serverUploadRequests 0 = [.metadataPost 0, .putChunk 0 0 true] ∧
    serverUploadRequests 0 ≠ [] := by
  constructor
  · rfl
  · simp [serverUploadRequests]

/-- C9 amended: the client-side `uploadAndAnalyzeVideo` precheck rejects a
zero-byte file (with the "file is empty" upload error) before any network
request, and an empty file can never reach the proceed stage; the
server-side `uploadVideoToFilesAPI`, however, always begins with the
network metadata request, whatever the size — it has no empty-payload
rejection. -/
theorem empty_upload_rejected_client_side :
    uploadAndAnalyzePrecheck true 0 = .emptyFile ∧
    (∀ mimeIsVideo, uploadAndAnalyzePrecheck mimeIsVideo 0 ≠ .proceed) ∧
    (∀ fileSize, (serverUploadRequests fileSize).head? = some (.metadataPost fileSize)) := by
  refine ⟨rfl, ?_, fun _ => rfl⟩
  intro b
  cases b <;> decide

/-! ## C2 toolbox: list scans -/

theorem dropWhile_append_all {p : Char → Bool} {l1 : List Char} (l2 : List Char)
    (h : ∀ c ∈ l1, p c = true) : (l1 ++ l2).dropWhile p = l2.dropWhile p := by
  induction l1 with
  | nil => rfl
  | cons c t ih =>
    rw [List.cons_append, List.dropWhile_cons, h c (List.mem_cons_self _ _)]
    exact ih fun c hc => h c (List.mem_cons_of_mem _ hc)

theorem takeWhile_append_all {p : Char → Bool} {l1 : List Char} (l2 : List Char)
    (h : ∀ c ∈ l1, p c = true) : (l1 ++ l2).takeWhile p = l1 ++ l2.takeWhile p := by
  induction l1 with
  | nil => rfl
  | cons c t ih =>
    have ht := ih fun c hc => h c (List.mem_cons_of_mem _ hc)
    simp [List.takeWhile_cons, h c (List.mem_cons_self _ _), ht]

theorem dropWhile_head_false {p : Char → Bool} {c : Char} (t : List Char)
    (h : p c = false) : (c :: t).dropWhile p = c :: t := by
  rw [List.dropWhile_cons, h]
  rfl

theorem takeWhile_head_false {p : Char → Bool} {c : Char} (t : List Char)
    (h : p c = false) : (c :: t).takeWhile p = [] := by
  rw [List.takeWhile_cons, h]
  rfl

/-! ## C2 toolbox: decimal digits -/

theorem digitChar_isDigit (n : ℕ) : (digitChar n).isDigit = true := by
  unfold digitChar
  have h : n % 10 < 10 := Nat.mod_lt _ (by norm_num)
  generalize n % 10 = m at *
  interval_cases m <;> decide

theorem digitVal_digitChar (n : ℕ) (h : n < 10) : digitVal (digitChar n) = n := by
  unfold digitChar digitVal
  rw [Nat.mod_eq_of_lt h]
  interval_cases n <;> decide

theorem digitsToNat_append (ds : List Char) (c : Char) :
    digitsToNat (ds ++ [c]) = digitsToNat ds * 10 + digitVal c := by
  unfold digitsToNat
  rw [List.foldl_append]
  rfl

theorem natDigitsAux_spec :
    ∀ fuel n, n < fuel →
      natDigitsAux fuel n ≠ [] ∧ (∀ c ∈ natDigitsAux fuel n, c.isDigit = true) ∧
        digitsToNat (natDigitsAux fuel n) = n := by
  intro fuel
  induction fuel with
  | zero => intro n h; omega
  | succ fuel ih =>
    intro n h
    by_cases h10 : n < 10
    · rw [natDigitsAux, if_pos h10]
      refine ⟨by simp, ?_, ?_⟩
      · intro c hc
        rw [List.mem_singleton] at hc
        rw [hc]
        exact digitChar_isDigit n
      · show digitsToNat ([] ++ [digitChar n]) = n
        rw [digitsToNat_append, digitVal_digitChar n h10]
        show 0 * 10 + n = n
        omega
    · rw [natDigitsAux, if_neg h10]
      have hdiv : n / 10 < fuel := by
        have := Nat.div_lt_self (show 0 < n by omega) (show 1 < 10 by norm_num)
        omega
      obtain ⟨hne, hdig, hval⟩ := ih (n / 10) hdiv
      refine ⟨by simp, ?_, ?_⟩
      · intro c hc
        rw [List.mem_append] at hc
        rcases hc with hc | hc
        · exact hdig c hc
        · rw [List.mem_singleton] at hc
          rw [hc]
          exact digitChar_isDigit _
      · rw [digitsToNat_append, hval, digitVal_digitChar _ (Nat.mod_lt _ (by norm_num))]
        omega

theorem natDigits_spec (n : ℕ) :
    natDigits n ≠ [] ∧ (∀ c ∈ natDigits n, c.isDigit = true) ∧
      digitsToNat (natDigits n) = n :=
  natDigitsAux_spec (n + 1) n (Nat.lt_succ_self n)

/-! ## C2 toolbox: token parsers on serialized output -/

/-- The continuation after a serialized numeral must not begin with a
digit (in serialized JSON it is `,`, `]`, `}` or the end). -/
def noDigitHead (s : List Char) : Prop :=
  ∀ c, s.head? = some c → c.isDigit = false

theorem noDigitHead_nil : noDigitHead [] := by
  intro c h
  simp at h

theorem noDigitHead_cons {c : Char} (t : List Char) (h : c.isDigit = false) :
    noDigitHead (c :: t) := by
  intro d hd
  simp only [List.head?_cons, Option.some.injEq] at hd
  rw [← hd]
  exact h

theorem digits_span (n : ℕ) (rest : List Char) (h : noDigitHead rest) :
    (natDigits n ++ rest).takeWhile Char.isDigit = natDigits n ∧
    (natDigits n ++ rest).dropWhile Char.isDigit = rest := by
  obtain ⟨-, hdig, -⟩ := natDigits_spec n
  constructor
  · rw [takeWhile_append_all rest hdig]
    cases rest with
    | nil => simp
    | cons r t => rw [takeWhile_head_false t (h r rfl), List.append_nil]
  · rw [dropWhile_append_all rest hdig]
    cases rest with
    | nil => rfl
    | cons r t => exact dropWhile_head_false t (h r rfl)

theorem parseNumber_serializeInt (k : ℤ) (rest : List Char) (h : noDigitHead rest) :
    parseNumber (serializeInt k ++ rest) = some (k, rest) := by
  by_cases hk : k < 0
  · rw [serializeInt, if_pos hk, List.cons_append]
    obtain ⟨htake, hdrop⟩ := digits_span k.natAbs rest h
    have hstep : parseNumber ('-' :: (natDigits k.natAbs ++ rest)) =
        (if ((natDigits k.natAbs ++ rest).takeWhile Char.isDigit).isEmpty = true then none
         else some (-(digitsToNat ((natDigits k.natAbs ++ rest).takeWhile Char.isDigit) : ℤ),
           (natDigits k.natAbs ++ rest).dropWhile Char.isDigit)) := rfl
    rw [hstep, htake, hdrop]
    obtain ⟨hne, -, hval⟩ := natDigits_spec k.natAbs
    rw [if_neg (by simpa using hne), hval]
    have hcast : -((k.natAbs : ℕ) : ℤ) = k := by omega
    rw [hcast]
  · rw [serializeInt, if_neg hk]
    obtain ⟨hne, hdig, hval⟩ := natDigits_spec k.toNat
    obtain ⟨c, t, hct⟩ : ∃ c t, natDigits k.toNat = c :: t := by
      cases hd : natDigits k.toNat with
      | nil => exact absurd hd hne
      | cons c t => exact ⟨c, t, rfl⟩
    have hcdig : c.isDigit = true := hdig c (by rw [hct]; exact List.mem_cons_self _ _)
    have hcne : ¬c = '-' := by
      intro hc
      rw [hc] at hcdig
      exact absurd hcdig (by decide)
    obtain ⟨htake, hdrop⟩ := digits_span k.toNat rest h
    rw [hct, List.cons_append] at htake hdrop ⊢
    simp only [parseNumber, if_neg hcne, htake, hdrop]
    rw [if_neg (by simp), ← hct, hval]
    have hcast : ((k.toNat : ℕ) : ℤ) = k := by omega
    rw [hcast]

theorem parseStringBody_append (s rest : List Char)
    (h : ∀ c ∈ s, (!(c == '"')) = true) :
    parseStringBody (s ++ '"' :: rest) = some (s, rest) := by
  unfold parseStringBody
  rw [dropWhile_append_all _ h, takeWhile_append_all _ h,
    dropWhile_head_false rest (by decide), takeWhile_head_false rest (by decide),
    List.append_nil]
  rfl

/-! ## C2 toolbox: serialized output shape -/

theorem serializeJson_head (j : JsonVal) :
    ∃ c t, serializeJson j = c :: t ∧
      (c = 'n' ∨ c = 't' ∨ c = 'f' ∨ c = '"' ∨ c = '-' ∨ c.isDigit = true ∨
        c = '[' ∨ c = '{') := by
  cases j with
  | jNull => exact ⟨'n', _, rfl, by tauto⟩
  | jBool b =>
    cases b with
    | false => exact ⟨'f', _, rfl, by tauto⟩
    | true => exact ⟨'t', _, rfl, by tauto⟩
  | jNum k =>
    by_cases hk : k < 0
    · refine ⟨'-', natDigits k.natAbs, ?_, by tauto⟩
      show serializeInt k = _
      rw [serializeInt, if_pos hk]
    · obtain ⟨hne, hdig, -⟩ := natDigits_spec k.toNat
      cases hd : natDigits k.toNat with
      | nil => exact absurd hd hne
      | cons c t =>
        refine ⟨c, t, ?_, ?_⟩
        · show serializeInt k = _
          rw [serializeInt, if_neg hk, hd]
        · have := hdig c (by rw [hd]; exact List.mem_cons_self _ _)
          tauto
  | jStr s => exact ⟨'"', _, rfl, by tauto⟩
  | jArr es => exact ⟨'[', _, rfl, by tauto⟩
  | jObj fs => exact ⟨'{', _, rfl, by tauto⟩

theorem serializeFields_cons_head (k : List Char) (v : JsonVal)
    (fs : List (List Char × JsonVal)) :
    ∃ t, serializeFields ((k, v) :: fs) = '"' :: t := by
  cases fs with
  | nil => exact ⟨_, rfl⟩
  | cons f fs' => exact ⟨_, rfl⟩

theorem sizeJ_pos (j : JsonVal) : 1 ≤ sizeJ j := by
  cases j <;> simp [sizeJ]

theorem size_le_serialized_length :
    ∀ b : ℕ,
      (∀ j, sizeJ j ≤ b → sizeJ j ≤ (serializeJson j).length) ∧
      (∀ es, sizeE es ≤ b → sizeE es ≤ (serializeElems es).length + 1) ∧
      (∀ fs, sizeF fs ≤ b → sizeF fs ≤ (serializeFields fs).length + 1) := by
  intro b
  induction b with
  | zero =>
    refine ⟨fun j hj => absurd hj (by have := sizeJ_pos j; omega), fun es hes => ?_,
      fun fs hfs => ?_⟩
    · omega
    · omega
  | succ b ih =>
    obtain ⟨ihP, ihQ, ihR⟩ := ih
    refine ⟨?_, ?_, ?_⟩
    · intro j hj
      cases j with
      | jNull => simp [sizeJ, serializeJson]
      | jBool bb => cases bb <;> simp [sizeJ, serializeJson]
      | jNum k =>
        obtain ⟨c, t, hct, -⟩ := serializeJson_head (.jNum k)
        rw [hct]
        simp [sizeJ]
      | jStr s => simp [sizeJ, serializeJson]
      | jArr es =>
        rw [show sizeJ (.jArr es) = 1 + sizeE es from rfl] at hj ⊢
        have hes : sizeE es ≤ b := by omega
        have := ihQ es hes
        show 1 + sizeE es ≤ ('[' :: (serializeElems es ++ [']'])).length
        simp only [List.length_cons, List.length_append, List.length_singleton]
        omega
      | jObj fs =>
        rw [show sizeJ (.jObj fs) = 1 + sizeF fs from rfl] at hj ⊢
        have hfs : sizeF fs ≤ b := by omega
        have := ihR fs hfs
        show 1 + sizeF fs ≤ ('{' :: (serializeFields fs ++ ['}'])).length
        simp only [List.length_cons, List.length_append, List.length_singleton]
        omega
    · intro es hes
      match es with
      | [] => simp [sizeE]
      | [e] =>
        rw [show sizeE [e] = 1 + sizeJ e + 0 from rfl] at hes ⊢
        have hj : sizeJ e ≤ b := by omega
        have := ihP e hj
        show 1 + sizeJ e + 0 ≤ (serializeJson e).length + 1
        omega
      | e :: e' :: es'' =>
        rw [show sizeE (e :: e' :: es'') = 1 + sizeJ e + sizeE (e' :: es'') from rfl]
          at hes ⊢
        have h1 : sizeJ e ≤ b := by
          have := sizeJ_pos e'
          have : 1 ≤ sizeE (e' :: es'') := by
            rw [show sizeE (e' :: es'') = 1 + sizeJ e' + sizeE es'' from rfl]
            omega
          omega
        have h2 : sizeE (e' :: es'') ≤ b := by
          have := sizeJ_pos e
          omega
        have hP := ihP e h1
        have hQ := ihQ (e' :: es'') h2
        show _ ≤ (serializeJson e ++ ',' :: serializeElems (e' :: es'')).length + 1
        simp only [List.length_append, List.length_cons]
        omega
    · intro fs hfs
      match fs with
      | [] => simp [sizeF]
      | [(k, v)] =>
        rw [show sizeF [(k, v)] = 1 + sizeJ v + 0 from rfl] at hfs ⊢
        have hj : sizeJ v ≤ b := by omega
        have := ihP v hj
        show 1 + sizeJ v + 0 ≤ ('"' :: (k ++ '"' :: ':' :: serializeJson v)).length + 1
        simp only [List.length_cons, List.length_append]
        omega
      | (k, v) :: f' :: fs'' =>
        rw [show sizeF ((k, v) :: f' :: fs'') = 1 + sizeJ v + sizeF (f' :: fs'') from rfl]
          at hfs ⊢
        have h1 : sizeJ v ≤ b := by
          have : 1 ≤ sizeF (f' :: fs'') := by
            obtain ⟨k', v'⟩ := f'
            rw [show sizeF ((k', v') :: fs'') = 1 + sizeJ v' + sizeF fs'' from rfl]
            omega
          omega
        have h2 : sizeF (f' :: fs'') ≤ b := by
          have := sizeJ_pos v
          omega
        have hP := ihP v h1
        have hR := ihR (f' :: fs'') h2
        show _ ≤ ('"' :: (k ++ '"' :: ':' :: serializeJson v ++
          ',' :: serializeFields (f' :: fs''))).length + 1
        simp only [List.length_cons, List.length_append]
        omega

/-! ## C2 toolbox: parser step lemmas -/

theorem digit_ne_delims (c : Char) (h : c.isDigit = true) :
    ¬c = 'n' ∧ ¬c = 't' ∧ ¬c = 'f' ∧ ¬c = '"' ∧ ¬c = '[' ∧ ¬c = '{' := by
  refine ⟨?_, ?_, ?_, ?_, ?_, ?_⟩ <;>
    · intro hh
      rw [hh] at h
      exact absurd h (by decide)

theorem parseValue_str_step (fuel : ℕ) (X : List Char) :
    parseValue (fuel + 1) ('"' :: X) =
      (match parseStringBody X with
       | some (a, r) => some (.jStr a, r)
       | none => none) := rfl

theorem parseValue_neg_step (fuel : ℕ) (X : List Char) :
    parseValue (fuel + 1) ('-' :: X) =
      (match parseNumber ('-' :: X) with
       | some (k, r) => some (.jNum k, r)
       | none => none) := rfl

theorem parseValue_digit_step (fuel : ℕ) (c : Char) (t : List Char)
    (h : c.isDigit = true) :
    parseValue (fuel + 1) (c :: t) =
      (match parseNumber (c :: t) with
       | some (k, r) => some (.jNum k, r)
       | none => none) := by
  obtain ⟨h1, h2, h3, h4, h5, h6⟩ := digit_ne_delims c h
  simp only [parseValue, if_neg h1, if_neg h2, if_neg h3, if_neg h4, if_neg h5, if_neg h6,
    if_pos (Or.inr h)]

theorem parseValue_arr_step (fuel : ℕ) (c : Char) (Y : List Char) (hc : ¬c = ']') :
    parseValue (fuel + 1) ('[' :: c :: Y) =
      (match parseElems fuel (c :: Y) with
       | some (es, r) => some (.jArr es, r)
       | none => none) := by
  have h0 : parseValue (fuel + 1) ('[' :: c :: Y) =
      (match c :: Y with
       | ']' :: r => some (.jArr [], r)
       | _ =>
         match parseElems fuel (c :: Y) with
         | some (es, r) => some (.jArr es, r)
         | none => none) := rfl
  rw [h0]
  split
  · rename_i heq
    exact absurd (List.head_eq_of_cons_eq heq) hc
  · rfl

theorem parseValue_obj_step (fuel : ℕ) (c : Char) (Y : List Char) (hc : ¬c = '}') :
    parseValue (fuel + 1) ('{' :: c :: Y) =
      (match parseFields fuel (c :: Y) with
       | some (fs, r) => some (.jObj fs, r)
       | none => none) := by
  have h0 : parseValue (fuel + 1) ('{' :: c :: Y) =
      (match c :: Y with
       | '}' :: r => some (.jObj [], r)
       | _ =>
         match parseFields fuel (c :: Y) with
         | some (fs, r) => some (.jObj fs, r)
         | none => none) := rfl
  rw [h0]
  split
  · rename_i heq
    exact absurd (List.head_eq_of_cons_eq heq) hc
  · rfl

/-! ## C2: the round trip on serialized values -/

theorem roundtrip_triple :
    ∀ fuel : ℕ,
      (∀ j rest, wfJson j = true → sizeJ j ≤ fuel → noDigitHead rest →
        parseValue fuel (serializeJson j ++ rest) = some (j, rest)) ∧
      (∀ es rest, wfElems es = true → sizeE es ≤ fuel → es ≠ [] →
        parseElems fuel (serializeElems es ++ ']' :: rest) = some (es, rest)) ∧
      (∀ fs rest, wfFields fs = true → sizeF fs ≤ fuel → fs ≠ [] →
        parseFields fuel (serializeFields fs ++ '}' :: rest) = some (fs, rest)) := by
  intro fuel
  induction fuel with
  | zero =>
    refine ⟨fun j rest _ hs _ => absurd hs (by have := sizeJ_pos j; omega),
      fun es rest _ hs hne => ?_, fun fs rest _ hs hne => ?_⟩
    · cases es with
      | nil => exact absurd rfl hne
      | cons e es' =>
        rw [show sizeE (e :: es') = 1 + sizeJ e + sizeE es' from rfl] at hs
        omega
    · cases fs with
      | nil => exact absurd rfl hne
      | cons f fs' =>
        obtain ⟨k, v⟩ := f
        rw [show sizeF ((k, v) :: fs') = 1 + sizeJ v + sizeF fs' from rfl] at hs
        omega
  | succ fuel ih =>
    obtain ⟨ihP, ihQ, ihR⟩ := ih
    refine ⟨?_, ?_, ?_⟩
    · -- values
      intro j rest hwf hsz hrest
      cases j with
      | jNull => rfl
      | jBool b => cases b <;> rfl
      | jNum k =>
        by_cases hk : k < 0
        · have hser : serializeInt k ++ rest = '-' :: (natDigits k.natAbs ++ rest) := by
            rw [serializeInt, if_pos hk, List.cons_append]
          show parseValue (fuel + 1) (serializeInt k ++ rest) = _
          rw [hser, parseValue_neg_step, ← hser, parseNumber_serializeInt k rest hrest]
        · obtain ⟨hne, hdig, -⟩ := natDigits_spec k.toNat
          obtain ⟨c, t, hct⟩ : ∃ c t, natDigits k.toNat = c :: t := by
            cases hd : natDigits k.toNat with
            | nil => exact absurd hd hne
            | cons c t => exact ⟨c, t, rfl⟩
          have hcd : c.isDigit = true := hdig c (by rw [hct]; exact List.mem_cons_self _ _)
          have hser : serializeInt k ++ rest = c :: (t ++ rest) := by
            rw [serializeInt, if_neg hk, hct, List.cons_append]
          show parseValue (fuel + 1) (serializeInt k ++ rest) = _
          rw [hser, parseValue_digit_step fuel c _ hcd, ← hser,
            parseNumber_serializeInt k rest hrest]
      | jStr s =>
        have hall : ∀ c ∈ s, (!(c == '"')) = true := by
          rw [show wfJson (.jStr s) = s.all (fun c => !(c == '"')) from rfl,
            List.all_eq_true] at hwf
          exact hwf
        have hser : serializeJson (.jStr s) ++ rest = '"' :: (s ++ '"' :: rest) := by
          show ('"' :: (s ++ ['"'])) ++ rest = _
          rw [List.cons_append, List.append_assoc]
          rfl
        rw [hser, parseValue_str_step, parseStringBody_append s rest hall]
      | jArr es =>
        cases es with
        | nil => rfl
        | cons e es' =>
          have hwf' : wfElems (e :: es') = true := hwf
          have hsz' : sizeE (e :: es') ≤ fuel := by
            rw [show sizeJ (.jArr (e :: es')) = 1 + sizeE (e :: es') from rfl] at hsz
            omega
          have hQ := ihQ (e :: es') rest hwf' hsz' (by simp)
          obtain ⟨c, t0, hc_eq, hcopts⟩ := serializeJson_head e
          have hcne : ¬c = ']' := by
            rcases hcopts with h | h | h | h | h | h | h | h
            all_goals first
            | (rw [h]; decide)
            | (intro hh; rw [hh] at h; exact absurd h (by decide))
          have hser : serializeJson (.jArr (e :: es')) ++ rest =
              '[' :: (serializeElems (e :: es') ++ ']' :: rest) := by
            show ('[' :: (serializeElems (e :: es') ++ [']'])) ++ rest = _
            simp only [List.cons_append, List.append_assoc, List.nil_append]
          obtain ⟨Z, hZ⟩ : ∃ Z, serializeElems (e :: es') ++ ']' :: rest = c :: Z := by
            cases es' with
            | nil =>
              refine ⟨t0 ++ ']' :: rest, ?_⟩
              rw [show serializeElems [e] = serializeJson e by simp [serializeElems],
                hc_eq, List.cons_append]
            | cons e' es'' =>
              refine ⟨t0 ++ ',' :: (serializeElems (e' :: es'') ++ ']' :: rest), ?_⟩
              rw [show serializeElems (e :: e' :: es'') =
                  serializeJson e ++ ',' :: serializeElems (e' :: es'') by
                simp [serializeElems], hc_eq]
              simp only [List.cons_append, List.append_assoc]
          rw [hser, hZ, parseValue_arr_step fuel c Z hcne, ← hZ, hQ]
      | jObj fs =>
        cases fs with
        | nil => rfl
        | cons f fs' =>
          obtain ⟨k, v⟩ := f
          have hwf' : wfFields ((k, v) :: fs') = true := hwf
          have hsz' : sizeF ((k, v) :: fs') ≤ fuel := by
            rw [show sizeJ (.jObj ((k, v) :: fs')) = 1 + sizeF ((k, v) :: fs') from rfl]
              at hsz
            omega
          have hR := ihR ((k, v) :: fs') rest hwf' hsz' (by simp)
          obtain ⟨tf, htf⟩ := serializeFields_cons_head k v fs'
          have hT : serializeFields ((k, v) :: fs') ++ '}' :: rest =
              '"' :: (tf ++ '}' :: rest) := by
            rw [htf, List.cons_append]
          have hser : serializeJson (.jObj ((k, v) :: fs')) ++ rest =
              '{' :: (serializeFields ((k, v) :: fs') ++ '}' :: rest) := by
            show ('{' :: (serializeFields ((k, v) :: fs') ++ ['}'])) ++ rest = _
            rw [List.cons_append, List.append_assoc]
            rfl
          rw [hser, hT, parseValue_obj_step fuel '"' _ (by decide), ← hT, hR]
    · -- array elements
      intro es rest hwf hsz hne
      cases es with
      | nil => exact absurd rfl hne
      | cons e es' =>
        have hsz1 : sizeE (e :: es') = 1 + sizeJ e + sizeE es' := rfl
        have hwf1 : wfJson e = true ∧ wfElems es' = true := by
          rw [show wfElems (e :: es') = (wfJson e && wfElems es') from rfl,
            Bool.and_eq_true] at hwf
          exact hwf
        cases es' with
        | nil =>
          have hP := ihP e (']' :: rest) hwf1.1 (by rw [hsz1] at hsz; omega)
            (noDigitHead_cons _ (by decide))
          show parseElems (fuel + 1) (serializeJson e ++ ']' :: rest) = _
          simp only [parseElems, hP]
        | cons e' es'' =>
          have hszE : 1 ≤ sizeE (e' :: es'') := by
            rw [show sizeE (e' :: es'') = 1 + sizeJ e' + sizeE es'' from rfl]
            omega
          have hP := ihP e (',' :: (serializeElems (e' :: es'') ++ ']' :: rest)) hwf1.1
            (by rw [hsz1] at hsz; omega) (noDigitHead_cons _ (by decide))
          have hQ := ihQ (e' :: es'') rest hwf1.2 (by rw [hsz1] at hsz; omega) (by simp)
          have hs : serializeElems (e :: e' :: es'') ++ ']' :: rest =
              serializeJson e ++ (',' :: (serializeElems (e' :: es'') ++ ']' :: rest)) := by
            show (serializeJson e ++ ',' :: serializeElems (e' :: es'')) ++ ']' :: rest = _
            rw [List.append_assoc]
            rfl
          rw [hs]
          simp only [parseElems, hP, hQ]
    · -- object fields
      intro fs rest hwf hsz hne
      cases fs with
      | nil => exact absurd rfl hne
      | cons f fs' =>
        obtain ⟨k, v⟩ := f
        have hsz1 : sizeF ((k, v) :: fs') = 1 + sizeJ v + sizeF fs' := rfl
        have hwf1 : (∀ c ∈ k, (!(c == '"')) = true) ∧ wfJson v = true ∧
            wfFields fs' = true := by
          rw [show wfFields ((k, v) :: fs')
              = ((k.all fun c => !(c == '"')) && wfJson v && wfFields fs') from rfl,
            Bool.and_eq_true, Bool.and_eq_true, List.all_eq_true] at hwf
          exact ⟨hwf.1.1, hwf.1.2, hwf.2⟩
        cases fs' with
        | nil =>
          have hP := ihP v ('}' :: rest) hwf1.2.1 (by rw [hsz1] at hsz; omega)
            (noDigitHead_cons _ (by decide))
          have hs : serializeFields [(k, v)] ++ '}' :: rest =
              '"' :: (k ++ '"' :: ':' :: (serializeJson v ++ '}' :: rest)) := by
            show ('"' :: (k ++ '"' :: ':' :: serializeJson v)) ++ '}' :: rest = _
            rw [List.cons_append, List.append_assoc]
            rfl
          rw [hs]
          simp only [parseFields, parseStringBody_append k _ hwf1.1, hP]
        | cons f' fs'' =>
          have hszF : 1 ≤ sizeF (f' :: fs'') := by
            obtain ⟨k', v'⟩ := f'
            rw [show sizeF ((k', v') :: fs'') = 1 + sizeJ v' + sizeF fs'' from rfl]
            omega
          have hP := ihP v (',' :: (serializeFields (f' :: fs'') ++ '}' :: rest)) hwf1.2.1
            (by rw [hsz1] at hsz; omega) (noDigitHead_cons _ (by decide))
          have hR := ihR (f' :: fs'') rest hwf1.2.2 (by rw [hsz1] at hsz; omega) (by simp)
          have hs : serializeFields ((k, v) :: f' :: fs'') ++ '}' :: rest =
              '"' :: (k ++ '"' :: ':' ::
                (serializeJson v ++ ',' :: (serializeFields (f' :: fs'') ++ '}' :: rest))) := by
            show ('"' :: (k ++ '"' :: ':' :: serializeJson v ++
              ',' :: serializeFields (f' :: fs''))) ++ '}' :: rest = _
            simp only [List.cons_append, List.append_assoc]
          rw [hs]
          simp only [parseFields, parseStringBody_append k _ hwf1.1, hP, hR]

theorem parseJson_serializeJson (j : JsonVal) (hwf : wfJson j = true) :
    parseJson (serializeJson j) = some j := by
  unfold parseJson
  have hlen := (size_le_serialized_length (sizeJ j)).1 j (le_refl _)
  have hP := (roundtrip_triple ((serializeJson j).length + 1)).1 j [] hwf (by omega)
    noDigitHead_nil
  rw [List.append_nil] at hP
  rw [hP]

theorem braceCore_eq (fs : List (List Char × JsonVal)) (pre suf : List Char)
    (hpre : ∀ c ∈ pre, c ≠ '{' ∧ c ≠ '}') (hsuf : ∀ c ∈ suf, c ≠ '{' ∧ c ≠ '}') :
    braceCore (pre ++ serializeJson (.jObj fs) ++ suf) = serializeJson (.jObj fs) := by
  have hpre' : ∀ c ∈ pre, (!(c == '{')) = true := by
    intro c hc
    simp [(hpre c hc).1]
  have hsufr : ∀ c ∈ suf.reverse, (!(c == '}')) = true := by
    intro c hc
    rw [List.mem_reverse] at hc
    simp [(hsuf c hc).2]
  unfold braceCore
  rw [show serializeJson (.jObj fs) = '{' :: (serializeFields fs ++ ['}']) from rfl,
    List.append_assoc, dropWhile_append_all _ hpre', List.cons_append,
    dropWhile_head_false _ (by decide), List.reverse_cons, List.reverse_append,
    List.reverse_append, List.reverse_singleton, List.append_assoc,
    dropWhile_append_all _ hsufr, List.singleton_append, List.cons_append,
    dropWhile_head_false _ (by decide), List.reverse_cons, List.reverse_append,
    List.reverse_singleton, List.reverse_reverse, List.singleton_append,
    List.cons_append]

/-- C2 amended: the extraction cascade does recover the object when the
surrounding noise contains no brace characters: for every well-formed JSON
object and all brace-free prefix/suffix noise (plain prose, newlines,
triple-backtick fences, a `json` tag, …), `extractJsonFromText` returns
exactly the object (round trip through `JSON.parse`∘serialize), and the
client-side `extractJsonFromString` returns exactly its serialization.
Noise containing braces breaks the cascade (see the counterexample), so
the brace-free restriction is necessary. -/
theorem extractor_round_trip (fs : List (List Char × JsonVal)) (pre suf : List Char)
    (hwf : wfJson (.jObj fs) = true)
    (hpre : ∀ c ∈ pre, c ≠ '{' ∧ c ≠ '}') (hsuf : ∀ c ∈ suf, c ≠ '{' ∧ c ≠ '}') :
    extractJsonFromText (pre ++ serializeJson (.jObj fs) ++ suf) = some (.jObj fs) ∧
    extractJsonFromString (pre ++ serializeJson (.jObj fs) ++ suf) =
      some (serializeJson (.jObj fs)) := by
  have hb := braceCore_eq fs pre suf hpre hsuf
  have hm1 : method1 (pre ++ serializeJson (.jObj fs) ++ suf) = some (.jObj fs) := by
    unfold method1
    rw [hb, parseJson_serializeJson _ hwf]
  constructor
  · unfold extractJsonFromText
    rw [hm1]
  · unfold extractJsonFromString
    rw [hb]
    rw [if_pos]
    show 2 ≤ ('{' :: (serializeFields fs ++ ['}'])).length
    simp [List.length_cons, List.length_append]

theorem extractor_round_trip_witness :
    extractJsonFromText ("Here you go:\n```json\n".toList ++
        serializeJson (.jObj [(['a'], JsonVal.jNum 1)]) ++ "\n```".toList) =
      some (.jObj [(['a'], JsonVal.jNum 1)]) ∧
    extractJsonFromString ("Here you go:\n```json\n".toList ++
        serializeJson (.jObj [(['a'], JsonVal.jNum 1)]) ++ "\n```".toList) =
      some (serializeJson (.jObj [(['a'], JsonVal.jNum 1)])) :=
  extractor_round_trip [(['a'], JsonVal.jNum 1)] "Here you go:\n```json\n".toList
    "\n```".toList rfl (by decide) (by decide)

/-- C2 counterexample: on prose that itself contains brace characters the
cascade fails to recover the object.  `noisyInput` is
`"see {braces} ahead " ++ serialize {"a": 1}` — a single well-formed JSON
object surrounded by prose — yet `extractJsonFromText` fails on it (all
four strategies throw): method 1 parses `{braces} ahead {"a":1}`, methods
2–3 stop at `{braces}`, method 4 cleans the text down to `{braces}`.  The
same object without the braced prose is extracted fine. -/
theorem extractor_fails_on_braced_prose :
    noisyInput = "see {braces} ahead ".toList ++ serializeJson obj1 ∧
    wfJson obj1 = true ∧
    extractJsonFromText noisyInput = none ∧
    extractJsonFromText (serializeJson obj1) = some obj1 := by
  exact ⟨rfl, rfl, rfl, rfl⟩

/-! ## C7: the fallback generator is randomized, not deterministic -/

/-- C7 counterexample: two invocations of `generateFallbackPerformanceData`
with identical inputs (same player name, same clock value) but different
`Math.random()` draws produce different result sets — the generator draws
ten random values, so it is not a deterministic function of (timestamp,
player name). -/
theorem fallback_generator_not_deterministic :
    generateFallbackPerformanceData "张三" 1000 (fun _ => 0) ≠
      generateFallbackPerformanceData "张三" 1000 (fun _ => 1 / 2) := by
  intro h
  have h2 := congrArg Performance.overall h
  norm_num [generateFallbackPerformanceData] at h2

/-- C7 amended: the fallback generator is randomized — its output depends
on the `Math.random()` stream and `Date.now()`, not only on (timestamp,
player name); for any fixed draws in [0,1) the synthesized record is
schema-valid, with every field inside its documented range (`overall`
70–90, `speed`/`passing`/`positioning` 65–95, `touches` 80–140, `distance`
6–9 km, `topSpeed` 20–28 km/h, `passAccuracy` 75–95, `dominantFoot.right`
60–90, `dominantFoot.left` 10–40). -/
theorem fallback_generator_schema_valid (playerName : String) (now : ℕ) (rnd : ℕ → ℚ)
    (h : ∀ k, 0 ≤ rnd k ∧ rnd k < 1) :
    (70 ≤ (generateFallbackPerformanceData playerName now rnd).overall ∧
      (generateFallbackPerformanceData playerName now rnd).overall < 90) ∧
    (65 ≤ (generateFallbackPerformanceData playerName now rnd).speed ∧
      (generateFallbackPerformanceData playerName now rnd).speed < 95) ∧
    (65 ≤ (generateFallbackPerformanceData playerName now rnd).passing ∧
      (generateFallbackPerformanceData playerName now rnd).passing < 95) ∧
    (65 ≤ (generateFallbackPerformanceData playerName now rnd).positioning ∧
      (generateFallbackPerformanceData playerName now rnd).positioning < 95) ∧
    (80 ≤ (generateFallbackPerformanceData playerName now rnd).touches ∧
      (generateFallbackPerformanceData playerName now rnd).touches < 140) ∧
    (6 ≤ (generateFallbackPerformanceData playerName now rnd).distance ∧
      (generateFallbackPerformanceData playerName now rnd).distance < 9) ∧
    (20 ≤ (generateFallbackPerformanceData playerName now rnd).topSpeed ∧
      (generateFallbackPerformanceData playerName now rnd).topSpeed < 28) ∧
    (75 ≤ (generateFallbackPerformanceData playerName now rnd).passAccuracy ∧
      (generateFallbackPerformanceData playerName now rnd).passAccuracy < 95) ∧
    (60 ≤ (generateFallbackPerformanceData playerName now rnd).footRight ∧
      (generateFallbackPerformanceData playerName now rnd).footRight < 90) ∧
    (10 < (generateFallbackPerformanceData playerName now rnd).footLeft ∧
      (generateFallbackPerformanceData playerName now rnd).footLeft ≤ 40) := by
  have b0 := floor_mul_bounds (rnd 0) 20 (by norm_num) (h 0).1 (h 0).2
  have b1 := floor_mul_bounds (rnd 1) 10 (by norm_num) (h 1).1 (h 1).2
  have b2 := floor_mul_bounds (rnd 2) 10 (by norm_num) (h 2).1 (h 2).2
  have b3 := floor_mul_bounds (rnd 3) 10 (by norm_num) (h 3).1 (h 3).2
  have b4 := floor_mul_bounds (rnd 4) 60 (by norm_num) (h 4).1 (h 4).2
  have b7 := floor_mul_bounds (rnd 7) 20 (by norm_num) (h 7).1 (h 7).2
  have b8 := floor_mul_bounds (rnd 8) 30 (by norm_num) (h 8).1 (h 8).2
  have b9 := floor_mul_bounds (rnd 9) 30 (by norm_num) (h 9).1 (h 9).2
  have h5 := h 5
  have h6 := h 6
  simp only [generateFallbackPerformanceData]
  push_cast at b0 b1 b2 b3 b4 b7 b8 b9 ⊢
  refine ⟨⟨by linarith [b0.1], by linarith [b0.2]⟩,
    ⟨by linarith [b0.1, b1.1], by linarith [b0.2, b1.2]⟩,
    ⟨by linarith [b0.1, b2.1], by linarith [b0.2, b2.2]⟩,
    ⟨by linarith [b0.1, b3.1], by linarith [b0.2, b3.2]⟩,
    ⟨by linarith [b4.1], by linarith [b4.2]⟩,
    ⟨by nlinarith [h5.1], by nlinarith [h5.2]⟩,
    ⟨by nlinarith [h6.1], by nlinarith [h6.2]⟩,
    ⟨by linarith [b7.1], by linarith [b7.2]⟩,
    ⟨by linarith [b8.1], by linarith [b8.2]⟩,
    ⟨by linarith [b9.2], by linarith [b9.1]⟩⟩

theorem fallback_generator_schema_valid_witness :
    (70 ≤ (generateFallbackPerformanceData "p" 0 (fun _ => 0)).overall ∧
      (generateFallbackPerformanceData "p" 0 (fun _ => 0)).overall < 90) ∧
    (65 ≤ (generateFallbackPerformanceData "p" 0 (fun _ => 0)).speed ∧
      (generateFallbackPerformanceData "p" 0 (fun _ => 0)).speed < 95) ∧
    (65 ≤ (generateFallbackPerformanceData "p" 0 (fun _ => 0)).passing ∧
      (generateFallbackPerformanceData "p" 0 (fun _ => 0)).passing < 95) ∧
    (65 ≤ (generateFallbackPerformanceData "p" 0 (fun _ => 0)).positioning ∧
      (generateFallbackPerformanceData "p" 0 (fun _ => 0)).positioning < 95) ∧
    (80 ≤ (generateFallbackPerformanceData "p" 0 (fun _ => 0)).touches ∧
      (generateFallbackPerformanceData "p" 0 (fun _ => 0)).touches < 140) ∧
    (6 ≤ (generateFallbackPerformanceData "p" 0 (fun _ => 0)).distance ∧
      (generateFallbackPerformanceData "p" 0 (fun _ => 0)).distance < 9) ∧
    (20 ≤ (generateFallbackPerformanceData "p" 0 (fun _ => 0)).topSpeed ∧
      (generateFallbackPerformanceData "p" 0 (fun _ => 0)).topSpeed < 28) ∧
    (75 ≤ (generateFallbackPerformanceData "p" 0 (fun _ => 0)).passAccuracy ∧
      (generateFallbackPerformanceData "p" 0 (fun _ => 0)).passAccuracy < 95) ∧
    (60 ≤ (generateFallbackPerformanceData "p" 0 (fun _ => 0)).footRight ∧
      (generateFallbackPerformanceData "p" 0 (fun _ => 0)).footRight < 90) ∧
    (10 < (generateFallbackPerformanceData "p" 0 (fun _ => 0)).footLeft ∧
      (generateFallbackPerformanceData "p" 0 (fun _ => 0)).footLeft ≤ 40) :=
  fallback_generator_schema_valid "p" 0 (fun _ => 0)
    (fun _ => ⟨le_refl 0, by norm_num⟩)

end FootballAI
